import Mathlib

/-!
# WeChat Work API proxy (`src/proxy.js`)

A shallow embedding of the relay in `src/proxy.js`: the request listener, the
prefix gate and target construction of `handleProxyRequest`, the header rewrite
of `createProxyOptions`, the three upstream callbacks (`response`, `error`,
`timeout`) and the two process-wide counters.

The JavaScript and Node.js library behaviour the program relies on is written
out as executable definitions next to the program: ordinary objects with
string keys (creation order, spread, `delete`), a heap for the header objects
that are reached through references, `JSON.stringify`, the states of the
WHATWG URL parser that a request target starting with `/` reaches, and the
header store of `http.OutgoingMessage` (`setHeader`, `writeHead`, `end`).

Console output and wall-clock readings that only feed log lines are left out.
-/

namespace WechatProxy

/-! ## Text -/

/-- The code point U+0022, the double quote. -/
def dquote : Char := Char.ofNat 0x22

/-- The code point U+0027, the single quote. -/
def squote : Char := Char.ofNat 0x27

/-- The code point U+005C, the backslash. -/
def backslash : Char := Char.ofNat 0x5C

/-- The code point U+0060, the grave accent. -/
def grave : Char := Char.ofNat 0x60

/-- `String.prototype.toLowerCase` on header names. Header names are HTTP
tokens, hence ASCII, where lower-casing maps `A`..`Z` to `a`..`z`. -/
def toLowerCase (s : String) : String := ⟨s.data.map Char.toLower⟩

/-- `String.prototype.startsWith`. -/
def startsWith (s p : String) : Bool := p.data.isPrefixOf s.data

/-! ## Ordinary objects with string keys -/

/-- An ordinary JavaScript object whose property keys are strings: the
properties in creation order. A read takes the first entry of a key, so an
entry behind another one of the same key is never observed. -/
abbrev JsObject (α : Type) := List (String × α)

namespace JsObject

variable {α : Type}

/-- `o[k]`, with `none` for `undefined` (no own property `k`). -/
def get (o : JsObject α) (k : String) : Option α := List.lookup k o

/-- `o[k] = v`: an existing property keeps its place, a new one goes last. -/
def set : JsObject α → String → α → JsObject α
  | [], k, v => [(k, v)]
  | (k', v') :: rest, k, v =>
    if k' = k then (k, v) :: rest else (k', v') :: set rest k v

/-- `delete o[k]`. -/
def delete (o : JsObject α) (k : String) : JsObject α :=
  o.filter (fun p => p.1 ≠ k)

/-- The distinct keys of `o` in creation order. -/
def createdKeys (o : JsObject α) : List String :=
  o.foldl (fun acc p => if p.1 ∈ acc then acc else acc ++ [p.1]) []

/-- The array index a property key denotes, if it is one: a canonical decimal
numeral below `2^32 - 1`. -/
def arrayIndex? (k : String) : Option Nat :=
  match k.data with
  | [] => none
  | c :: cs =>
    if (c :: cs).all Char.isDigit && (c != '0' || cs.isEmpty) then
      let n := (c :: cs).foldl (fun a d => 10 * a + (d.toNat - 48)) 0
      if n < 2 ^ 32 - 1 then some n else none
    else none

/-- Order of two array-index keys by their numeric value. -/
def indexLE (a b : String) : Prop := (arrayIndex? a).getD 0 ≤ (arrayIndex? b).getD 0

instance : DecidableRel indexLE := fun a b =>
  inferInstanceAs (Decidable ((arrayIndex? a).getD 0 ≤ (arrayIndex? b).getD 0))

/-- `Object.keys(o)` (OrdinaryOwnPropertyKeys): array-index keys in ascending
numeric order, then the other keys in creation order. -/
def ownKeys (o : JsObject α) : List String :=
  List.insertionSort indexLE ((createdKeys o).filter (fun k => (arrayIndex? k).isSome))
    ++ (createdKeys o).filter (fun k => (arrayIndex? k).isNone)

/-- Copy the own properties of `source` onto `target` (CopyDataProperties), as
`{ ...source }` does inside an object literal: for every own key in key order,
read the value and define the property. -/
def spread (target source : JsObject α) : JsObject α :=
  (ownKeys source).foldl
    (fun t k => match get source k with
      | some v => set t k v
      | none => t)
    target

end JsObject

/-! ## `JSON.stringify` -/

/-- The values the program serialises. A number that is not an integer is
carried by its JSON text. -/
inductive Json where
  | str (s : String)
  | int (i : Int)
  | num (text : String)
  | obj (fields : List (String × Json))

/-- A hexadecimal digit, lower case. -/
def hexDigitLower (n : Nat) : Char :=
  if n < 10 then Char.ofNat (48 + n) else Char.ofNat (87 + n)

/-- A hexadecimal digit, upper case. -/
def hexDigitUpper (n : Nat) : Char :=
  if n < 10 then Char.ofNat (48 + n) else Char.ofNat (55 + n)

/-- One code point inside a JSON string literal (QuoteJSONString). -/
def quoteJSONChar (c : Char) : List Char :=
  if c = Char.ofNat 0x08 then [backslash, 'b']
  else if c = Char.ofNat 0x09 then [backslash, 't']
  else if c = Char.ofNat 0x0A then [backslash, 'n']
  else if c = Char.ofNat 0x0C then [backslash, 'f']
  else if c = Char.ofNat 0x0D then [backslash, 'r']
  else if c = dquote then [backslash, dquote]
  else if c = backslash then [backslash, backslash]
  else if c.toNat < 0x20 then
    [backslash, 'u', '0', '0', hexDigitLower (c.toNat / 16), hexDigitLower (c.toNat % 16)]
  else [c]

/-- A string as a JSON string literal. -/
def quoteJSONString (s : String) : String :=
  ⟨dquote :: (s.data.flatMap quoteJSONChar ++ [dquote])⟩

mutual
/-- The text `JSON.stringify(v)` produces. -/
def Json.stringify : Json → String
  | .str s => quoteJSONString s
  | .int i => toString i
  | .num text => text
  | .obj fields => "\x7b" ++ Json.stringifyFields fields ++ "\x7d"
/-- The members of an object, separated by commas. -/
def Json.stringifyFields : List (String × Json) → String
  | [] => ""
  | [(k, v)] => quoteJSONString k ++ ":" ++ Json.stringify v
  | (k, v) :: rest =>
    quoteJSONString k ++ ":" ++ Json.stringify v ++ "," ++ Json.stringifyFields rest
end

mutual
/-- The text `JSON.stringify(v, null, 2)` produces for a value nested at
indentation `indent`. -/
def Json.stringifyPretty (indent : String) : Json → String
  | .str s => quoteJSONString s
  | .int i => toString i
  | .num text => text
  | .obj [] => "\x7b\x7d"
  | .obj (f :: fs) =>
    "\x7b\n" ++ Json.stringifyPrettyFields (indent ++ "  ") (f :: fs) ++ "\n" ++ indent ++ "\x7d"
/-- The members of an object, one per line at indentation `indent`. -/
def Json.stringifyPrettyFields (indent : String) : List (String × Json) → String
  | [] => ""
  | [(k, v)] => indent ++ quoteJSONString k ++ ": " ++ Json.stringifyPretty indent v
  | (k, v) :: rest =>
    indent ++ quoteJSONString k ++ ": " ++ Json.stringifyPretty indent v ++ ",\n"
      ++ Json.stringifyPrettyFields indent rest
end

/-! ## The URL parser on a request target

`new URL(input, base)` with `base = http://localhost:PORT`, followed through
the states of the WHATWG basic URL parser that an input starting with `/`
reaches when a scheme or authority does not follow: scheme start, no scheme,
relative, relative slash, path, query and fragment. The scheme is `http`, a
special scheme, so a backslash ends a path segment like a slash does and the
query uses the special-query percent-encode set. -/

/-- C0 control or space. -/
def isC0ControlOrSpace (c : Char) : Bool := c.toNat ≤ 0x20

/-- ASCII tab or newline. -/
def isAsciiTabOrNewline (c : Char) : Bool :=
  c = Char.ofNat 0x09 || c = Char.ofNat 0x0A || c = Char.ofNat 0x0D

/-- The C0 control percent-encode set: C0 controls and all code points above
U+007E. -/
def inC0ControlSet (c : Char) : Bool := c.toNat ≤ 0x1F || c.toNat > 0x7E

/-- The fragment percent-encode set. -/
def inFragmentSet (c : Char) : Bool :=
  inC0ControlSet c || c = ' ' || c = dquote || c = '<' || c = '>' || c = grave

/-- The query percent-encode set. -/
def inQuerySet (c : Char) : Bool :=
  inC0ControlSet c || c = ' ' || c = dquote || c = '#' || c = '<' || c = '>'

/-- The special-query percent-encode set. -/
def inSpecialQuerySet (c : Char) : Bool := inQuerySet c || c = squote

/-- The path percent-encode set, as the URL parser of Node.js 22 has it: the
query percent-encode set and `?`, the grave accent and the two braces. (Later
revisions of the URL standard add `^`.) -/
def inPathSet (c : Char) : Bool :=
  inQuerySet c || c = '?' || c = grave || c = '\x7b' || c = '\x7d'

/-- The UTF-8 encoding of a code point, as byte values. -/
def utf8Bytes (c : Char) : List Nat :=
  let n := c.toNat
  if n < 0x80 then [n]
  else if n < 0x800 then [0xC0 + n / 64, 0x80 + n % 64]
  else if n < 0x10000 then [0xE0 + n / 4096, 0x80 + n / 64 % 64, 0x80 + n % 64]
  else [0xF0 + n / 262144, 0x80 + n / 4096 % 64, 0x80 + n / 64 % 64, 0x80 + n % 64]

/-- Percent-encode a byte: `%` and two upper-case hexadecimal digits. -/
def percentEncodeByte (b : Nat) : List Char :=
  ['%', hexDigitUpper (b / 16), hexDigitUpper (b % 16)]

/-- UTF-8 percent-encode a code point using a percent-encode set. -/
def utf8PercentEncode (inSet : Char → Bool) (c : Char) : List Char :=
  if inSet c then (utf8Bytes c).flatMap percentEncodeByte else [c]

/-- A single-dot path segment: `.` or an ASCII case-insensitive match for
`%2e`. -/
def isSingleDotSegment (buffer : List Char) : Bool :=
  buffer = ['.'] || buffer.map Char.toLower = ['%', '2', 'e']

/-- A double-dot path segment: `..` or an ASCII case-insensitive match for
`.%2e`, `%2e.` or `%2e%2e`. -/
def isDoubleDotSegment (buffer : List Char) : Bool :=
  buffer = ['.', '.'] || buffer.map Char.toLower = ['.', '%', '2', 'e']
    || buffer.map Char.toLower = ['%', '2', 'e', '.']
    || buffer.map Char.toLower = ['%', '2', 'e', '%', '2', 'e']

/-- The part of a URL record the program reads: the path segments, the query
and the fragment. Scheme, host and port are those of the base. -/
structure URLRecord where
  path : List (List Char)
  query : Option (List Char)
  fragment : Option (List Char)
  deriving DecidableEq

/-- Shorten a path (scheme is not `file`): drop the last segment, if any. -/
def shortenPath (path : List (List Char)) : List (List Char) := path.dropLast

/-- Fragment state: every remaining code point is UTF-8 percent-encoded with
the fragment percent-encode set and appended to the fragment. -/
def fragmentState (url : URLRecord) (input : List Char) : URLRecord :=
  { url with
    fragment := some (url.fragment.getD [] ++ input.flatMap (utf8PercentEncode inFragmentSet)) }

/-- Query state: code points are collected in `buffer` up to `#` or the end of
the input, then percent-encoded with the special-query percent-encode set and
appended to the query. -/
def queryState (url : URLRecord) (buffer : List Char) : List Char → URLRecord
  | [] =>
    { url with
      query := some (url.query.getD [] ++ buffer.flatMap (utf8PercentEncode inSpecialQuerySet)) }
  | c :: rest =>
    if c = '#' then
      fragmentState
        { url with
          query := some (url.query.getD [] ++ buffer.flatMap (utf8PercentEncode inSpecialQuerySet))
          fragment := some [] }
        rest
    else queryState url (buffer ++ [c]) rest

/-- What the path state does with `buffer` when a segment ends; `atSlash` tells
whether the segment was ended by `/` or `\`. -/
def endPathSegment (url : URLRecord) (buffer : List Char) (atSlash : Bool) : URLRecord :=
  if isDoubleDotSegment buffer then
    { url with
      path := if atSlash then shortenPath url.path else shortenPath url.path ++ [[]] }
  else if isSingleDotSegment buffer then
    if atSlash then url else { url with path := url.path ++ [[]] }
  else { url with path := url.path ++ [buffer] }

/-- Path state. -/
def pathState (url : URLRecord) (buffer : List Char) : List Char → URLRecord
  | [] => endPathSegment url buffer false
  | c :: rest =>
    if c = '/' || c = backslash then pathState (endPathSegment url buffer true) [] rest
    else if c = '?' then
      queryState { endPathSegment url buffer false with query := some [] } [] rest
    else if c = '#' then
      fragmentState { endPathSegment url buffer false with fragment := some [] } rest
    else pathState url (buffer ++ utf8PercentEncode inPathSet c) rest

/-- Trailing C0 controls and spaces removed. -/
def stripTrailing : List Char → List Char
  | [] => []
  | c :: cs =>
    match stripTrailing cs with
    | [] => if isC0ControlOrSpace c then [] else [c]
    | r :: rs => c :: r :: rs

/-- Leading and trailing C0 controls and spaces removed, then every ASCII tab
and newline removed. -/
def preprocessInput (input : List Char) : List Char :=
  (stripTrailing (input.dropWhile isC0ControlOrSpace)).filter
    (fun c => !isAsciiTabOrNewline c)

/-- `new URL(input, base)` for a base `http://localhost:PORT`, on an input
that starts with `/` not followed by `/` or `\`. The result is `none` on any
other input (a scheme or an authority follows), where the parser leaves the
states followed here. -/
def parseURL (input : String) : Option URLRecord :=
  match preprocessInput input.data with
  | '/' :: rest =>
    match rest with
    | [] => some (pathState ⟨[], none, none⟩ [] [])
    | c :: _ =>
      if c = '/' || c = backslash then none
      else some (pathState ⟨[], none, none⟩ [] rest)
  | _ => none

/-- The `pathname` getter: every segment preceded by `/`. -/
def URLRecord.pathname (url : URLRecord) : String :=
  ⟨url.path.flatMap (fun segment => '/' :: segment)⟩

/-- The `search` getter: empty for a null or empty query, else `?` and the
query. -/
def URLRecord.search (url : URLRecord) : String :=
  match url.query with
  | none => ""
  | some [] => ""
  | some (c :: cs) => ⟨'?' :: c :: cs⟩

/-! ## HTTP messages (`http.OutgoingMessage`, `http.ServerResponse`, `http.ClientRequest`) -/

/-- A header value as Node.js hands it over: one string, or a list of strings
for a header that is kept as an array (`set-cookie`). -/
inductive HeaderValue where
  | single (value : String)
  | multi (values : List String)
  deriving DecidableEq

/-- The header store of an outgoing message (`kOutHeaders`): keyed by the
lower-cased name, holding the name as written and the value. -/
abbrev HeaderStore := JsObject (String × HeaderValue)

/-- `OutgoingMessage.prototype.setHeader` on the store: the entry of the
lower-cased name is overwritten. -/
def setHeader (store : HeaderStore) (name : String) (value : HeaderValue) : HeaderStore :=
  JsObject.set store (toLowerCase name) (name, value)

/-- `getHeader(name)`: header names are compared case-insensitively. -/
def getHeader (store : HeaderStore) (name : String) : Option HeaderValue :=
  (JsObject.get store (toLowerCase name)).map Prod.snd

/-- The header lines an outgoing message sends: name as written, and value. -/
def headerLines (store : HeaderStore) : List (String × HeaderValue) := store.map Prod.snd

/-- The header store `http.request(options)` fills from `options.headers`: one
`setHeader` per own key of the object, in key order. -/
def clientHeaders (headers : JsObject HeaderValue) : HeaderStore :=
  (JsObject.ownKeys headers).foldl
    (fun store k => match JsObject.get headers k with
      | some v => setHeader store k v
      | none => store)
    []

/-- The exceptions the modelled calls throw. -/
inductive JsError where
  | ERR_HTTP_HEADERS_SENT
  | ERR_HTTP_INVALID_STATUS_CODE
  | ERR_INVALID_URL
  deriving DecidableEq

/-- A server response: the header store, the response head once written
(status code and header store as sent), the body written so far, and whether
`end` was called. -/
structure ServerResponse where
  outHeaders : HeaderStore
  head : Option (Nat × HeaderStore)
  body : String
  finished : Bool

/-- The response object the server hands to the request listener. -/
def ServerResponse.fresh : ServerResponse :=
  { outHeaders := [], head := none, body := "", finished := false }

/-- The getter `res.headersSent`. -/
def ServerResponse.headersSent (res : ServerResponse) : Bool := res.head.isSome

/-- The method `res.setHeader(name, value)`: throws once the head is written. -/
def ServerResponse.setHeader (res : ServerResponse) (name : String) (value : HeaderValue) :
    Except JsError ServerResponse :=
  if res.headersSent then .error .ERR_HTTP_HEADERS_SENT
  else .ok { res with outHeaders := WechatProxy.setHeader res.outHeaders name value }

/-- The method `res.writeHead(statusCode, headers)`, called after `setHeader`
has started the header store: throws once the head is written and on a status
code outside 100..999; otherwise every own key of `headers` that is not the
empty string goes through `setHeader`, in key order, and the head is written
with the resulting store. -/
def ServerResponse.writeHead (res : ServerResponse) (statusCode : Nat)
    (headers : JsObject HeaderValue) : Except JsError ServerResponse :=
  if res.headersSent then .error .ERR_HTTP_HEADERS_SENT
  else if statusCode < 100 ∨ statusCode > 999 then .error .ERR_HTTP_INVALID_STATUS_CODE
  else
    let store := (JsObject.ownKeys headers).foldl
      (fun store k =>
        if k = "" then store
        else match JsObject.get headers k with
          | some v => WechatProxy.setHeader store k v
          | none => store)
      res.outHeaders
    .ok { res with outHeaders := store, head := some (statusCode, store) }

/-- The method `res.end(data)`: a head not yet written goes out with status
200 and the header store, then the data, and the response is finished. A
finished response stays as it is. -/
def ServerResponse.endResponse (res : ServerResponse) (data : String) : ServerResponse :=
  if res.finished then res
  else
    { res with
      head := match res.head with
        | some h => some h
        | none => some (200, res.outHeaders)
      body := res.body ++ data
      finished := true }

/-- An inbound request (`http.IncomingMessage` on the server side). -/
structure IncomingMessage where
  method : String
  url : String
  headers : JsObject HeaderValue

/-- The head of an upstream response as it arrives: status code and header
map. -/
structure ResponseHead where
  statusCode : Nat
  headers : JsObject HeaderValue

/-- A reference to an object in the heap. -/
abbrev Ref := Nat

/-- The header objects that are reached through references: the header map of
the upstream response and the copy the response callback makes of it. An
object literal allocates a new object; `delete` changes the object a reference
points to, for every holder of that reference. -/
structure Heap where
  objects : List (JsObject HeaderValue)

/-- The heap without objects. -/
def Heap.empty : Heap := { objects := [] }

/-- A new object with the given properties, and the reference to it. -/
def Heap.alloc (heap : Heap) (o : JsObject HeaderValue) : Heap × Ref :=
  ({ objects := heap.objects ++ [o] }, heap.objects.length)

/-- The object a reference points to. -/
def Heap.read (heap : Heap) (ref : Ref) : JsObject HeaderValue := heap.objects.getD ref []

/-- The object a reference points to is replaced. -/
def Heap.write (heap : Heap) (ref : Ref) (o : JsObject HeaderValue) : Heap :=
  { objects := heap.objects.set ref o }

/-- The object literal `{ ...source }`: a new object that gets the own
properties of the object `source` points to. -/
def Heap.spreadLiteral (heap : Heap) (source : Ref) : Heap × Ref :=
  heap.alloc (JsObject.spread [] (heap.read source))

/-- The statement `delete target[k]`, on the object `target` points to. -/
def Heap.deleteProperty (heap : Heap) (target : Ref) (k : String) : Heap :=
  heap.write target (JsObject.delete (heap.read target) k)

/-- An upstream response (`http.IncomingMessage` on the client side): the
status code and the reference to its `headers` object. -/
structure IncomingResponse where
  statusCode : Nat
  headers : Ref

/-- The options object `createProxyOptions` returns. -/
structure RequestOptions where
  hostname : String
  port : Nat
  path : String
  method : String
  headers : JsObject HeaderValue
  timeout : Nat

/-- An outbound request (`http.ClientRequest`): the options it was made from,
whether it goes over `https`, its header store, whether a response head has
arrived, whether it is destroyed, and the error it will emit on the next tick. -/
structure ClientRequest where
  options : RequestOptions
  secure : Bool
  headers : HeaderStore
  responseReceived : Bool
  destroyed : Bool
  pendingError : Option String

/-- `proxyReq.destroy()`: a request destroyed before a response head arrived
emits `error` with message `socket hang up` on the next tick. -/
def ClientRequest.destroy (r : ClientRequest) : ClientRequest :=
  if r.destroyed then r
  else
    { r with
      destroyed := true
      pendingError := if r.responseReceived then r.pendingError else some "socket hang up" }

/-! ## `proxy.js` -/

/-- The configuration read from the environment at start. -/
structure Config where
  PROXY_PORT : Nat
  TARGET_HOST : String
  TARGET_PORT : Nat

/-- What `process.uptime()`, `process.memoryUsage()` and `new Date()` return
when a status endpoint reads them. -/
structure ProcessInfo where
  uptime : String
  uptimeFloor : Nat
  memoryUsage : Json
  timestamp : String

/-- The module-level counters. -/
structure Counters where
  requestCount : Nat
  errorCount : Nat
  deriving DecidableEq

/-- The counters at process start. -/
def Counters.initial : Counters := { requestCount := 0, errorCount := 0 }

/-- The function `logRequest`: `requestCount++` (the log line is left out). -/
def logRequest (c : Counters) : Counters := { c with requestCount := c.requestCount + 1 }

/-- The function `logError`: `errorCount++` (the log line is left out). -/
def logError (c : Counters) : Counters := { c with errorCount := c.errorCount + 1 }

/-- The function `createProxyOptions`. -/
def createProxyOptions (cfg : Config) (req : IncomingMessage) (targetPath : String) :
    RequestOptions :=
  { hostname := cfg.TARGET_HOST
    port := cfg.TARGET_PORT
    path := targetPath
    method := req.method
    headers :=
      JsObject.set
        (JsObject.set (JsObject.spread [] req.headers) "Host" (.single cfg.TARGET_HOST))
        "Connection" (.single "close")
    timeout := 60000 }

/-- One inbound request in flight: the counters, the response object, the
outbound request if one was created, the heap of header objects, the upstream
response once its head arrived, the reference to the header copy made from
it, and the two pipes. -/
structure Exchange where
  counters : Counters
  res : ServerResponse
  proxyReq : Option ClientRequest
  heap : Heap
  proxyRes : Option IncomingResponse
  responseHeaders : Option Ref
  requestPiped : Bool
  responsePiped : Bool

/-- The handler `process.on('uncaughtException', ...)`: `errorCount++`. An
exception thrown out of a listener ends up here. -/
def uncaughtException (x : Exchange) : Exchange :=
  { x with counters := { x.counters with errorCount := x.counters.errorCount + 1 } }

/-- The outbound request `client.request(proxyOptions, ...)` creates. -/
def clientRequest (cfg : Config) (proxyOptions : RequestOptions) : ClientRequest :=
  { options := proxyOptions
    secure := cfg.TARGET_PORT = 443
    headers := clientHeaders proxyOptions.headers
    responseReceived := false
    destroyed := false
    pendingError := none }

/-- The target path `handleProxyRequest` computes from `req.url`:
`url.pathname + url.search`. -/
def targetPathOf (reqUrl : String) : Option String :=
  (parseURL reqUrl).map (fun url => url.pathname ++ url.search)

/-- The function `handleProxyRequest`, up to its return: the prefix gate, the
target construction and the creation of the outbound request. The three
callbacks it registers are `onProxyResponse`, `onProxyError`, `onProxyTimeout`. -/
def handleProxyRequest (cfg : Config) (x : Exchange) (req : IncomingMessage) : Exchange :=
  if !startsWith req.url "/cgi-bin/" then
    match x.res.writeHead 404 [("Content-Type", .single "text/plain; charset=utf-8")] with
    | .error _ => uncaughtException x
    | .ok res =>
      { x with res := res.endResponse "Not Found - Only /cgi-bin/ paths are proxyied" }
  else
    match targetPathOf req.url with
    | none => uncaughtException x
    | some targetPath =>
      let proxyOptions := createProxyOptions cfg req targetPath
      { x with proxyReq := some (clientRequest cfg proxyOptions), requestPiped := true }

/-- The callback of `client.request`, run when the upstream response head has
arrived. -/
def onProxyResponse (x : Exchange) (proxyRes : IncomingResponse) : Exchange :=
  let copied := x.heap.spreadLiteral proxyRes.headers
  let responseHeaders := copied.2
  let heap := copied.1.deleteProperty responseHeaders "transfer-encoding"
  let x :=
    { x with heap := heap, proxyRes := some proxyRes, responseHeaders := some responseHeaders }
  match x.res.writeHead proxyRes.statusCode (x.heap.read responseHeaders) with
  | .error _ => uncaughtException x
  | .ok res => { x with res := res, responsePiped := true, counters := logRequest x.counters }

/-- The body of the error envelope: `JSON.stringify` of `errcode` and `errmsg`. -/
def errorEnvelope (errmsg : String) : String :=
  Json.stringify (.obj [("errcode", .int (-1)), ("errmsg", .str errmsg)])

/-- The listener `proxyReq.on('error', ...)`. -/
def onProxyError (x : Exchange) (message : String) : Exchange :=
  let x := { x with counters := logError x.counters }
  match x.res.writeHead 502 [("Content-Type", .single "application/json; charset=utf-8")] with
  | .error _ => uncaughtException x
  | .ok res => { x with res := res.endResponse (errorEnvelope ("Proxy error: " ++ message)) }

/-- The listener `proxyReq.on('timeout', ...)`. -/
def onProxyTimeout (x : Exchange) : Exchange :=
  let x := { x with proxyReq := x.proxyReq.map ClientRequest.destroy }
  let x := { x with counters := logError x.counters }
  match x.res.writeHead 504 [("Content-Type", .single "application/json; charset=utf-8")] with
  | .error _ => uncaughtException x
  | .ok res => { x with res := res.endResponse (errorEnvelope "Gateway timeout") }

/-- The function `handleHealthCheck`. -/
def handleHealthCheck (cfg : Config) (info : ProcessInfo) (x : Exchange) : Exchange :=
  let healthData : Json := .obj
    [ ("status", .str "ok"),
      ("service", .str "wecom-proxy"),
      ("version", .str "1.0.0"),
      ("target", .obj [("host", .str cfg.TARGET_HOST), ("port", .int cfg.TARGET_PORT)]),
      ("stats", .obj
        [ ("totalRequests", .int x.counters.requestCount),
          ("totalErrors", .int x.counters.errorCount),
          ("uptime", .num info.uptime),
          ("memoryUsage", info.memoryUsage) ]),
      ("timestamp", .str info.timestamp) ]
  match x.res.writeHead 200 [("Content-Type", .single "application/json; charset=utf-8")] with
  | .error _ => uncaughtException x
  | .ok res => { x with res := res.endResponse (Json.stringifyPretty "" healthData) }

/-- The function `handleStats`. -/
def handleStats (info : ProcessInfo) (x : Exchange) : Exchange :=
  let statsData : Json := .obj
    [ ("totalRequests", .int x.counters.requestCount),
      ("totalErrors", .int x.counters.errorCount),
      ("uptime", .num info.uptime),
      ("memoryUsage", info.memoryUsage),
      ("timestamp", .str info.timestamp) ]
  match x.res.writeHead 200 [("Content-Type", .single "application/json; charset=utf-8")] with
  | .error _ => uncaughtException x
  | .ok res => { x with res := res.endResponse (Json.stringifyPretty "" statsData) }

/-- The function `handleRoot`. -/
def handleRoot (cfg : Config) (info : ProcessInfo) (x : Exchange) : Exchange :=
  let text : String :=
    "\nWeChat Work API Proxy Service\n==============================\n\nEndpoints:\n"
    ++ "  GET  /health          - Health check\n"
    ++ "  GET  /stats           - Request statistics\n"
    ++ "  GET  /                - This help message\n\nProxy:\n"
    ++ "  All /cgi-bin/* requests are proxied to " ++ cfg.TARGET_HOST ++ ":"
    ++ toString cfg.TARGET_PORT ++ "\n\nEnvironment Variables:\n"
    ++ "  PROXY_PORT   - Proxy listen port (default: 3100)\n"
    ++ "  TARGET_HOST  - Target server (default: qyapi.weixin.qq.com)\n"
    ++ "  TARGET_PORT  - Target port (default: 443)\n\nStats:\n"
    ++ "  Total Requests: " ++ toString x.counters.requestCount ++ "\n"
    ++ "  Total Errors: " ++ toString x.counters.errorCount ++ "\n"
    ++ "  Uptime: " ++ toString info.uptimeFloor ++ "s\n"
  match x.res.writeHead 200 [("Content-Type", .single "text/plain; charset=utf-8")] with
  | .error _ => uncaughtException x
  | .ok res => { x with res := res.endResponse text }

/-- The three `res.setHeader` calls at the top of the request listener. -/
def setCorsHeaders (res : ServerResponse) : Except JsError ServerResponse := do
  let res ← res.setHeader "Access-Control-Allow-Origin" (.single "*")
  let res ← res.setHeader "Access-Control-Allow-Methods" (.single "GET, POST, OPTIONS")
  res.setHeader "Access-Control-Allow-Headers" (.single "Content-Type, Authorization")

/-- The request listener passed to `http.createServer`, run on a request
`req` with the counters as they stand and a fresh response object. -/
def requestListener (cfg : Config) (info : ProcessInfo) (counters : Counters)
    (req : IncomingMessage) : Exchange :=
  let x : Exchange :=
    { counters := counters, res := ServerResponse.fresh, proxyReq := none, heap := Heap.empty,
      proxyRes := none, responseHeaders := none, requestPiped := false, responsePiped := false }
  match setCorsHeaders x.res with
  | .error _ => uncaughtException x
  | .ok res =>
    let x := { x with res := res }
    if req.method = "OPTIONS" then
      match x.res.writeHead 204 [] with
      | .error _ => uncaughtException x
      | .ok res => { x with res := res.endResponse "" }
    else if req.url = "/health" then handleHealthCheck cfg info x
    else if req.url = "/stats" then handleStats info x
    else if req.url = "/" ∨ req.url = "" then handleRoot cfg info x
    else handleProxyRequest cfg x req

/-- What the outbound request of a forwarded exchange emits. -/
inductive UpstreamEvent where
  | response (head : ResponseHead)
  | error (message : String)
  | timeout

/-- Run the listener of an event. A response head marks the outbound request
as answered and becomes an upstream response object with a `headers` object
of its own before the callback runs. -/
def emit (x : Exchange) : UpstreamEvent → Exchange
  | .response head =>
    let allocated := x.heap.alloc head.headers
    onProxyResponse
      { x with
        heap := allocated.1
        proxyReq := x.proxyReq.map (fun r => { r with responseReceived := true }) }
      { statusCode := head.statusCode, headers := allocated.2 }
  | .error message => onProxyError x message
  | .timeout => onProxyTimeout x

/-- The next tick after a listener returned: an error left pending by
`destroy` is emitted on the outbound request. -/
def nextTick (x : Exchange) : Exchange :=
  match x.proxyReq with
  | none => x
  | some r =>
    match r.pendingError with
    | none => x
    | some message =>
      onProxyError { x with proxyReq := some { r with pendingError := none } } message

/-- An event and everything it sets off. -/
def deliver (x : Exchange) (e : UpstreamEvent) : Exchange := nextTick (emit x e)

/-- A forwarding attempt: the request, and the events its outbound request
emits, in order. -/
abbrev Attempt := IncomingMessage × List UpstreamEvent

/-- A forwarding attempt from the request through all events of its outbound
request; the counters afterwards. -/
def runAttempt (cfg : Config) (info : ProcessInfo) (counters : Counters)
    (attempt : Attempt) : Counters :=
  (attempt.2.foldl deliver (requestListener cfg info counters attempt.1)).counters

/-- A sequence of forwarding attempts, run one after the other. -/
def runAttempts (cfg : Config) (info : ProcessInfo) (counters : Counters)
    (attempts : List Attempt) : Counters :=
  attempts.foldl (runAttempt cfg info) counters

/-! ## Vocabulary of the statements -/

/-- A request the listener forwards: not a preflight, and past the prefix
gate. -/
def Forwarded (req : IncomingMessage) : Prop :=
  req.method ≠ "OPTIONS" ∧ startsWith req.url "/cgi-bin/" = true

instance (req : IncomingMessage) : Decidable (Forwarded req) :=
  inferInstanceAs (Decidable (_ ∧ _))

/-- A header name as the HTTP parser delivers it: not empty and lower-cased. -/
def LowerCasedName (k : String) : Prop := k ≠ "" ∧ toLowerCase k = k

instance (k : String) : Decidable (LowerCasedName k) :=
  inferInstanceAs (Decidable (_ ∧ _))

/-- The header store after the three `setHeader` calls of the listener. -/
def corsStore : HeaderStore :=
  [ ("access-control-allow-origin", ("Access-Control-Allow-Origin", .single "*")),
    ("access-control-allow-methods",
      ("Access-Control-Allow-Methods", .single "GET, POST, OPTIONS")),
    ("access-control-allow-headers",
      ("Access-Control-Allow-Headers", .single "Content-Type, Authorization")) ]

/-- The response object after the three `setHeader` calls of the listener. -/
def corsResponse : ServerResponse :=
  { outHeaders := corsStore, head := none, body := "", finished := false }

/-- The header store of a response head the listener writes with a
`Content-Type` of its own. -/
def storeWith (contentType : String) : HeaderStore :=
  corsStore ++ [("content-type", ("Content-Type", .single contentType))]

/-- A header store carries the three CORS headers with the listener's values. -/
def CorsHeaders (store : HeaderStore) : Prop :=
  getHeader store "Access-Control-Allow-Origin" = some (.single "*")
    ∧ getHeader store "Access-Control-Allow-Methods" = some (.single "GET, POST, OPTIONS")
    ∧ getHeader store "Access-Control-Allow-Headers"
        = some (.single "Content-Type, Authorization")

/-- The exchange a forwarded request leaves behind when the listener returns. -/
def forwardedExchange (cfg : Config) (counters : Counters) (req : IncomingMessage)
    (targetPath : String) : Exchange :=
  { counters := counters
    res := corsResponse
    proxyReq := some (clientRequest cfg (createProxyOptions cfg req targetPath))
    heap := Heap.empty
    proxyRes := none
    responseHeaders := none
    requestPiped := true
    responsePiped := false }

/-- The configuration with the defaults of `proxy.js`. -/
def defaultConfig : Config :=
  { PROXY_PORT := 3120, TARGET_HOST := "qyapi.weixin.qq.com", TARGET_PORT := 443 }

/-- Sample readings of the process state. -/
def sampleInfo : ProcessInfo :=
  { uptime := "12.5", uptimeFloor := 12, memoryUsage := .obj [("rss", .int 50000000)],
    timestamp := "2024-01-01T00:00:00.000Z" }

/-- A request for the message API, as a client of the relay sends it. -/
def sampleRequest : IncomingMessage :=
  { method := "POST"
    url := "/cgi-bin/message/send?access_token=TOKEN"
    headers :=
      [ ("host", .single "127.0.0.1:3120"),
        ("content-type", .single "application/json"),
        ("content-length", .single "42") ] }

/-- The header map of an upstream response, as the HTTP parser delivers it. -/
def sampleUpstreamHeaders : JsObject HeaderValue :=
  [ ("content-type", .single "application/json; charset=UTF-8"),
    ("transfer-encoding", .single "chunked"),
    ("set-cookie", .multi ["a=1", "b=2"]) ]

/-- The first event of an attempt is a response head. -/
def UpstreamEvent.isResponse : UpstreamEvent → Bool
  | .response _ => true
  | _ => false

/-- The first event of an attempt is a transport error. -/
def UpstreamEvent.isError : UpstreamEvent → Bool
  | .error _ => true
  | _ => false

/-- The first event of an attempt is a timeout. -/
def UpstreamEvent.isTimeout : UpstreamEvent → Bool
  | .timeout => true
  | _ => false

/-- A response head carries a status code `writeHead` accepts. -/
def UpstreamEvent.ValidStatus : UpstreamEvent → Prop
  | .response head => 100 ≤ head.statusCode ∧ head.statusCode ≤ 999
  | _ => True

instance (e : UpstreamEvent) : Decidable e.ValidStatus := by
  cases e <;> unfold UpstreamEvent.ValidStatus <;> infer_instance

/-- An attempt with one upstream outcome: its outbound request emits a single
event (the error that follows a timeout comes from `destroy`, not from the
upstream), and a response head has a status code `writeHead` accepts. -/
def Attempt.SingleOutcome (a : Attempt) : Prop := ∃ e, a.2 = [e] ∧ e.ValidStatus

/-- A response head arrived during the attempt. -/
def Attempt.gotResponse (a : Attempt) : Bool := a.2.any UpstreamEvent.isResponse

/-- The attempt ran into a timeout. -/
def Attempt.timedOut (a : Attempt) : Bool := a.2.any UpstreamEvent.isTimeout

/-- The part of a request target before the first `?`. -/
def pathPart (u : String) : List Char := u.data.takeWhile (fun c => c != '?')

/-- The part of a request target from the first `?` on; empty without a `?`. -/
def queryPart (u : String) : List Char := u.data.dropWhile (fun c => c != '?')

/-- A code point the path state appends as it is whatever the revision of the
URL standard: outside the path percent-encode set, not a backslash and not
`^`. -/
def PathVerbatim (c : Char) : Prop := inPathSet c = false ∧ c ≠ backslash ∧ c ≠ '^'

instance (c : Char) : Decidable (PathVerbatim c) := inferInstanceAs (Decidable (_ ∧ _))

/-- A path segment that is neither a single-dot nor a double-dot segment. -/
def NotDotSegment (segment : List Char) : Prop :=
  isSingleDotSegment segment = false ∧ isDoubleDotSegment segment = false

instance (segment : List Char) : Decidable (NotDotSegment segment) :=
  inferInstanceAs (Decidable (_ ∧ _))

/-! ## Objects: reads after writes -/

namespace JsObject

variable {α : Type}

theorem get_nil (k : String) : get ([] : JsObject α) k = none := rfl

theorem get_cons (k' : String) (v' : α) (o : JsObject α) (k : String) :
    get ((k', v') :: o) k = if k = k' then some v' else get o k := by
  unfold get
  rw [List.lookup_cons]
  by_cases h : k = k'
  · simp [h]
  · have hb : (k == k') = false := by simpa using h
    simp [hb, h]

theorem get_set (o : JsObject α) (k : String) (v : α) (k' : String) :
    get (set o k v) k' = if k' = k then some v else get o k' := by
  induction o with
  | nil => simp [set, get_cons, get_nil]
  | cons e rest ih =>
    obtain ⟨a, b⟩ := e
    by_cases h : a = k
    · subst h
      simp only [set, if_true, get_cons]
      by_cases h2 : k' = a <;> simp [h2]
    · simp only [set, if_neg h, get_cons, ih]
      by_cases h2 : k' = a
      · have : ¬ k' = k := by rw [h2]; exact h
        simp [h2, h]
      · simp [h2]

theorem get_delete (o : JsObject α) (k k' : String) :
    get (delete o k) k' = if k' = k then none else get o k' := by
  induction o with
  | nil => simp [delete, get_nil]
  | cons e rest ih =>
    obtain ⟨a, b⟩ := e
    unfold delete at ih ⊢
    by_cases h : a = k
    · subst h
      simp only [List.filter, ne_eq, not_true_eq_false, decide_False, get_cons]
      rw [ih]
      by_cases h2 : k' = a <;> simp [h2]
    · simp only [List.filter, ne_eq, h, not_false_eq_true, decide_True, get_cons]
      rw [ih]
      by_cases h2 : k' = a
      · have : ¬ k' = k := by rw [h2]; exact h
        simp [h2, this, h]
      · simp [h2]

theorem get_isSome_iff (o : JsObject α) (k : String) :
    (get o k).isSome = true ↔ k ∈ o.map Prod.fst := by
  induction o with
  | nil => simp [get_nil]
  | cons e rest ih =>
    obtain ⟨a, b⟩ := e
    rw [get_cons]
    by_cases h : k = a
    · simp [h]
    · simp [h, ih]

theorem mem_of_get (o : JsObject α) (k : String) (v : α) (h : get o k = some v) :
    (k, v) ∈ o := by
  induction o with
  | nil => simp [get_nil] at h
  | cons e rest ih =>
    obtain ⟨a, b⟩ := e
    rw [get_cons] at h
    by_cases hk : k = a
    · rw [if_pos hk] at h
      rw [hk, Option.some.inj h]
      exact List.mem_cons_self _ _
    · rw [if_neg hk] at h
      exact List.mem_cons_of_mem _ (ih h)

theorem get_eq_none_iff (o : JsObject α) (k : String) :
    get o k = none ↔ k ∉ o.map Prod.fst := by
  rw [← get_isSome_iff]
  cases get o k <;> simp

theorem set_of_not_mem (o : JsObject α) (k : String) (v : α) (h : k ∉ o.map Prod.fst) :
    set o k v = o ++ [(k, v)] := by
  induction o with
  | nil => rfl
  | cons e rest ih =>
    obtain ⟨a, b⟩ := e
    simp only [List.map_cons, List.mem_cons, not_or] at h
    have h1 : ¬ a = k := fun h' => h.1 h'.symm
    simp only [set, if_neg h1, ih h.2, List.cons_append]

theorem mem_keys_set (o : JsObject α) (k : String) (v : α) (k' : String) :
    k' ∈ (set o k v).map Prod.fst ↔ k' = k ∨ k' ∈ o.map Prod.fst := by
  rw [← get_isSome_iff, ← get_isSome_iff, get_set]
  by_cases h : k' = k <;> simp [h]

theorem mem_createdKeys_aux (o : JsObject α) (acc : List String) (k : String) :
    k ∈ o.foldl (fun acc p => if p.1 ∈ acc then acc else acc ++ [p.1]) acc
      ↔ k ∈ acc ∨ k ∈ o.map Prod.fst := by
  induction o generalizing acc with
  | nil => simp
  | cons e rest ih =>
    simp only [List.foldl_cons, List.map_cons, List.mem_cons]
    rw [ih]
    by_cases h : e.1 ∈ acc
    · simp only [if_pos h]
      constructor
      · rintro (h1 | h1)
        · exact Or.inl h1
        · exact Or.inr (Or.inr h1)
      · rintro (h1 | h1 | h1)
        · exact Or.inl h1
        · exact Or.inl (h1 ▸ h)
        · exact Or.inr h1
    · simp only [if_neg h, List.mem_append, List.mem_singleton]
      tauto

theorem mem_createdKeys (o : JsObject α) (k : String) :
    k ∈ createdKeys o ↔ k ∈ o.map Prod.fst := by
  unfold createdKeys
  rw [mem_createdKeys_aux]
  simp

theorem mem_ownKeys (o : JsObject α) (k : String) :
    k ∈ ownKeys o ↔ k ∈ o.map Prod.fst := by
  unfold ownKeys
  rw [List.mem_append, (List.perm_insertionSort indexLE _).mem_iff, List.mem_filter,
    List.mem_filter, mem_createdKeys]
  cases arrayIndex? k <;> simp

theorem createdKeys_append_singleton (o : JsObject α) (k : String) (v : α)
    (h : k ∉ o.map Prod.fst) : createdKeys (o ++ [(k, v)]) = createdKeys o ++ [k] := by
  have h' : k ∉ createdKeys o := fun hk => h ((mem_createdKeys o k).1 hk)
  unfold createdKeys at h' ⊢
  rw [List.foldl_append]
  simp [h']

theorem ownKeys_append_singleton (o : JsObject α) (k : String) (v : α)
    (h : k ∉ o.map Prod.fst) (hk : arrayIndex? k = none) :
    ownKeys (o ++ [(k, v)]) = ownKeys o ++ [k] := by
  unfold ownKeys
  rw [createdKeys_append_singleton o k v h]
  simp [List.filter_append, hk]

/-- Reading a key after a run of writes: the value written if the key was
among those written with a value, else what was there before. -/
theorem get_foldl_set (f : String → Option α) (ks : List String) (t : JsObject α)
    (k : String) :
    get (ks.foldl (fun t k => match f k with
        | some v => set t k v
        | none => t) t) k
      = if k ∈ ks then (match f k with
          | some v => some v
          | none => get t k) else get t k := by
  induction ks generalizing t with
  | nil => simp
  | cons a rest ih =>
    rw [List.foldl_cons, ih]
    by_cases hr : k ∈ rest
    · simp only [hr, if_true, List.mem_cons, or_true]
      cases hf : f k with
      | some v => rfl
      | none =>
        simp only
        cases hfa : f a with
        | none => rfl
        | some w =>
          simp only
          rw [get_set]
          have : ¬ k = a := by
            intro hka
            rw [hka, hfa] at hf
            cases hf
          simp [this]
    · simp only [hr, if_false, List.mem_cons, or_false]
      by_cases hka : k = a
      · subst hka
        simp only [if_true]
        cases hf : f k with
        | none => rfl
        | some w => simp only; rw [get_set]; simp
      · simp only [hka, if_false]
        cases hfa : f a with
        | none => rfl
        | some w => simp only; rw [get_set]; simp [hka]

theorem get_spread (t s : JsObject α) (k : String) :
    get (spread t s) k = match get s k with
      | some v => some v
      | none => get t k := by
  unfold spread
  rw [get_foldl_set]
  by_cases h : k ∈ ownKeys s
  · simp [h]
  · simp only [h, if_false]
    rw [mem_ownKeys, ← get_eq_none_iff] at h
    rw [h]

theorem get_spread_nil (s : JsObject α) (k : String) : get (spread [] s) k = get s k := by
  rw [get_spread, get_nil]
  cases get s k <;> rfl

theorem mem_keys_spread_nil (s : JsObject α) (k : String) :
    k ∈ (spread [] s).map Prod.fst ↔ k ∈ s.map Prod.fst := by
  rw [← get_isSome_iff, ← get_isSome_iff, get_spread_nil]

end JsObject

/-! ## Header stores -/

variable {α : Type}

theorem keys_set (o : JsObject α) (k : String) (v : α) :
    (JsObject.set o k v).map Prod.fst
      = if k ∈ o.map Prod.fst then o.map Prod.fst else o.map Prod.fst ++ [k] := by
  induction o with
  | nil => simp [JsObject.set]
  | cons e rest ih =>
    obtain ⟨a, b⟩ := e
    by_cases h : a = k
    · subst h
      simp [JsObject.set]
    · have h' : ¬ k = a := fun h' => h h'.symm
      simp only [JsObject.set, if_neg h, List.map_cons, ih, List.mem_cons, h', false_or]
      by_cases hk : k ∈ rest.map Prod.fst <;> simp [hk]

theorem nodup_keys_set (o : JsObject α) (k : String) (v : α) (h : (o.map Prod.fst).Nodup) :
    ((JsObject.set o k v).map Prod.fst).Nodup := by
  rw [keys_set]
  by_cases hk : k ∈ o.map Prod.fst
  · simpa [hk] using h
  · rw [if_neg hk]
    exact List.Nodup.append h (List.nodup_singleton k) (by simpa using hk)

theorem mem_set (o : JsObject α) (k : String) (v : α) (e : String × α)
    (h : e ∈ JsObject.set o k v) : e = (k, v) ∨ e ∈ o := by
  induction o with
  | nil => simpa [JsObject.set] using h
  | cons p rest ih =>
    obtain ⟨a, b⟩ := p
    by_cases hk : a = k
    · simp only [JsObject.set, if_pos hk, List.mem_cons] at h
      rcases h with h | h
      · exact Or.inl h
      · exact Or.inr (List.mem_cons_of_mem _ h)
    · simp only [JsObject.set, if_neg hk, List.mem_cons] at h
      rcases h with h | h
      · exact Or.inr (h ▸ List.mem_cons_self _ _)
      · rcases ih h with h' | h'
        · exact Or.inl h'
        · exact Or.inr (List.mem_cons_of_mem _ h')

/-- A store is well kept: one entry per key, each under its lower-cased name. -/
theorem store_kept_setHeader (store : HeaderStore) (name : String) (value : HeaderValue)
    (h : (store.map Prod.fst).Nodup ∧ ∀ e ∈ store, e.1 = toLowerCase e.2.1) :
    ((setHeader store name value).map Prod.fst).Nodup
      ∧ ∀ e ∈ setHeader store name value, e.1 = toLowerCase e.2.1 := by
  refine ⟨nodup_keys_set _ _ _ h.1, ?_⟩
  intro e he
  rcases mem_set _ _ _ _ he with h' | h'
  · rw [h']
  · exact h.2 e h'

theorem store_kept_foldl (f : HeaderStore → String → HeaderStore)
    (hf : ∀ store k, ((store.map Prod.fst).Nodup ∧ ∀ e ∈ store, e.1 = toLowerCase e.2.1) →
      (((f store k).map Prod.fst).Nodup ∧ ∀ e ∈ f store k, e.1 = toLowerCase e.2.1))
    (ks : List String) (store : HeaderStore)
    (h : (store.map Prod.fst).Nodup ∧ ∀ e ∈ store, e.1 = toLowerCase e.2.1) :
    ((ks.foldl f store).map Prod.fst).Nodup
      ∧ ∀ e ∈ ks.foldl f store, e.1 = toLowerCase e.2.1 := by
  induction ks generalizing store with
  | nil => exact h
  | cons k rest ih => exact ih _ (hf store k h)

/-- In a well-kept store the lines sent under a name are exactly the entry of
that name. -/
theorem lines_of_name (store : HeaderStore) (n : String) (line : String × HeaderValue)
    (h : (store.map Prod.fst).Nodup ∧ ∀ e ∈ store, e.1 = toLowerCase e.2.1)
    (hg : JsObject.get store n = some line) :
    (headerLines store).filter (fun l => toLowerCase l.1 = n) = [line] := by
  induction store with
  | nil => simp [JsObject.get_nil] at hg
  | cons e rest ih =>
    obtain ⟨a, b⟩ := e
    obtain ⟨hnd, hkey⟩ := h
    rw [List.map_cons, List.nodup_cons] at hnd
    have ha : a = toLowerCase b.1 := hkey (a, b) (List.mem_cons_self _ _)
    have hrest : ∀ e ∈ rest, e.1 = toLowerCase e.2.1 :=
      fun e he => hkey e (List.mem_cons_of_mem _ he)
    rw [JsObject.get_cons] at hg
    unfold headerLines at ih ⊢
    by_cases hn : n = a
    · rw [if_pos hn] at hg
      have hb : b = line := Option.some.inj hg
      have hnone : (rest.map Prod.snd).filter (fun l => toLowerCase l.1 = n) = [] := by
        rw [List.filter_eq_nil_iff]
        intro l hl
        obtain ⟨e, he, hel⟩ := List.mem_map.1 hl
        intro hln
        apply hnd.1
        have : e.1 = a := by
          rw [hrest e he, hel, hn.symm]
          simpa using hln
        exact List.mem_map.2 ⟨e, he, this⟩
      rw [List.map_cons, List.filter_cons_of_pos (by simp [← ha, hn]), hnone, hb]
    · rw [if_neg hn] at hg
      rw [List.map_cons, List.filter_cons_of_neg (by simp [← ha]; exact fun h => hn h.symm)]
      exact ih ⟨hnd.2, hrest⟩ hg

/-! ## The listener up to its return -/

theorem setCorsHeaders_fresh : setCorsHeaders ServerResponse.fresh = .ok corsResponse := rfl

theorem writeHead_cors_contentType (statusCode : Nat) (contentType : String)
    (h1 : 100 ≤ statusCode) (h2 : statusCode ≤ 999) :
    corsResponse.writeHead statusCode [("Content-Type", .single contentType)]
      = .ok
        { corsResponse with
          outHeaders := storeWith contentType
          head := some (statusCode, storeWith contentType) } := by
  unfold ServerResponse.writeHead
  have hs : corsResponse.headersSent = false := rfl
  have hr : ¬ (statusCode < 100 ∨ statusCode > 999) := by omega
  rw [hs, if_neg hr]
  rfl

theorem not_startsWith_of_eq (u v : String) (h : startsWith v "/cgi-bin/" = false)
    (hs : startsWith u "/cgi-bin/" = true) : u ≠ v := by
  intro huv
  rw [huv, h] at hs
  cases hs

theorem requestListener_forwarded (cfg : Config) (info : ProcessInfo) (counters : Counters)
    (req : IncomingMessage) (targetPath : String) (hf : Forwarded req)
    (ht : targetPathOf req.url = some targetPath) :
    requestListener cfg info counters req = forwardedExchange cfg counters req targetPath := by
  obtain ⟨hm, hs⟩ := hf
  have h1 := not_startsWith_of_eq req.url "/health" (by decide) hs
  have h2 := not_startsWith_of_eq req.url "/stats" (by decide) hs
  have h3 := not_startsWith_of_eq req.url "/" (by decide) hs
  have h4 := not_startsWith_of_eq req.url "" (by decide) hs
  unfold requestListener
  simp only [setCorsHeaders_fresh, hm, h1, h2, h3, h4, if_false, or_self, handleProxyRequest, hs,
    Bool.not_true, ht, forwardedExchange]
  rfl

theorem stripTrailing_cons (c : Char) (t : List Char) (h : isC0ControlOrSpace c = false) :
    ∃ t', stripTrailing (c :: t) = c :: t' := by
  cases ht : stripTrailing t with
  | nil => exact ⟨[], by simp [stripTrailing, ht, h]⟩
  | cons r rs => exact ⟨r :: rs, by simp [stripTrailing, ht]⟩

theorem preprocessInput_gate (rest : List Char) :
    ∃ t', preprocessInput ('/' :: 'c' :: rest) = '/' :: 'c' :: t' := by
  obtain ⟨t1, h1⟩ := stripTrailing_cons 'c' rest (by decide)
  have h0 : isC0ControlOrSpace '/' = false := by decide
  have h2 : stripTrailing ('/' :: 'c' :: rest) = '/' :: 'c' :: t1 := by
    rw [stripTrailing, h1]
  refine ⟨t1.filter (fun c => !isAsciiTabOrNewline c), ?_⟩
  unfold preprocessInput
  rw [List.dropWhile_cons_of_neg (by simp [h0]), h2]
  have ha : (!isAsciiTabOrNewline '/') = true := by decide
  have hb : (!isAsciiTabOrNewline 'c') = true := by decide
  simp [List.filter_cons, ha, hb]

theorem data_of_startsWith (u : String) (h : startsWith u "/cgi-bin/" = true) :
    ∃ t, u.data = '/' :: 'c' :: 'g' :: 'i' :: '-' :: 'b' :: 'i' :: 'n' :: '/' :: t := by
  unfold startsWith at h
  rw [List.isPrefixOf_iff_prefix] at h
  obtain ⟨t, ht⟩ := h
  exact ⟨t, ht.symm⟩

/-- Past the prefix gate the URL constructor returns: the target path exists. -/
theorem targetPathOf_isSome (u : String) (h : startsWith u "/cgi-bin/" = true) :
    ∃ targetPath, targetPathOf u = some targetPath := by
  obtain ⟨t, ht⟩ := data_of_startsWith u h
  obtain ⟨t', ht'⟩ := preprocessInput_gate ('g' :: 'i' :: '-' :: 'b' :: 'i' :: 'n' :: '/' :: t)
  have hc : ('c' = '/' || 'c' = backslash) = false := by decide
  unfold targetPathOf parseURL
  rw [ht, ht']
  simp only [hc, Bool.false_eq_true, if_false, Option.map_some']
  exact ⟨_, rfl⟩

/-! ## The upstream callbacks on a forwarded request -/

theorem errorEnvelope_eq (errmsg : String) :
    errorEnvelope errmsg
      = "\x7b\"errcode\":-1,\"errmsg\":" ++ quoteJSONString errmsg ++ "\x7d" := by
  apply String.ext
  simp only [errorEnvelope, Json.stringify, Json.stringifyFields, String.data_append]
  rfl

theorem onProxyError_forwarded (cfg : Config) (counters : Counters) (req : IncomingMessage)
    (targetPath message : String) :
    onProxyError (forwardedExchange cfg counters req targetPath) message
      = { forwardedExchange cfg counters req targetPath with
          counters := logError counters
          res :=
            { outHeaders := storeWith "application/json; charset=utf-8"
              head := some (502, storeWith "application/json; charset=utf-8")
              body := errorEnvelope ("Proxy error: " ++ message)
              finished := true } } := by
  unfold onProxyError
  simp only [forwardedExchange]
  rw [writeHead_cors_contentType 502 _ (by decide) (by decide)]
  simp [ServerResponse.endResponse, corsResponse]

theorem onProxyTimeout_forwarded (cfg : Config) (counters : Counters) (req : IncomingMessage)
    (targetPath : String) :
    onProxyTimeout (forwardedExchange cfg counters req targetPath)
      = { forwardedExchange cfg counters req targetPath with
          counters := logError counters
          proxyReq := some
            { clientRequest cfg (createProxyOptions cfg req targetPath) with
              destroyed := true, pendingError := some "socket hang up" }
          res :=
            { outHeaders := storeWith "application/json; charset=utf-8"
              head := some (504, storeWith "application/json; charset=utf-8")
              body := errorEnvelope "Gateway timeout"
              finished := true } } := by
  unfold onProxyTimeout
  simp only [forwardedExchange]
  rw [writeHead_cors_contentType 504 _ (by decide) (by decide)]
  simp [ServerResponse.endResponse, corsResponse, ClientRequest.destroy, clientRequest]

theorem deliver_timeout_forwarded (cfg : Config) (counters : Counters) (req : IncomingMessage)
    (targetPath : String) :
    deliver (forwardedExchange cfg counters req targetPath) .timeout
      = { forwardedExchange cfg counters req targetPath with
          counters :=
            { requestCount := counters.requestCount, errorCount := counters.errorCount + 3 }
          proxyReq := some
            { clientRequest cfg (createProxyOptions cfg req targetPath) with
              destroyed := true, pendingError := none }
          res :=
            { outHeaders := storeWith "application/json; charset=utf-8"
              head := some (504, storeWith "application/json; charset=utf-8")
              body := errorEnvelope "Gateway timeout"
              finished := true } } := by
  unfold deliver emit
  rw [onProxyTimeout_forwarded]
  simp only [nextTick, onProxyError, ServerResponse.writeHead, ServerResponse.headersSent,
    Option.isSome_some, if_true, uncaughtException, logError, forwardedExchange]

theorem deliver_error_forwarded (cfg : Config) (counters : Counters) (req : IncomingMessage)
    (targetPath message : String) :
    deliver (forwardedExchange cfg counters req targetPath) (.error message)
      = onProxyError (forwardedExchange cfg counters req targetPath) message := by
  unfold deliver emit
  rw [onProxyError_forwarded]
  rfl

/-- C4: a timeout on a forwarded request, followed by the `error` the
destroyed outbound request emits. The client receives one response head, with
status 504 and the gateway-timeout envelope as body. `errorCount` goes up by
three, not by one: once in the timeout listener, once in the error listener,
and once more when the error listener throws on writing a second head. -/
theorem timeout_episode (cfg : Config) (info : ProcessInfo) (counters : Counters)
    (req : IncomingMessage) (hf : Forwarded req) :
    (deliver (requestListener cfg info counters req) .timeout).res.head
        = some (504, storeWith "application/json; charset=utf-8")
      ∧ (deliver (requestListener cfg info counters req) .timeout).res.body
        = "\x7b\"errcode\":-1,\"errmsg\":\"Gateway timeout\"\x7d"
      ∧ (deliver (requestListener cfg info counters req) .timeout).counters.errorCount
        = counters.errorCount + 3
      ∧ (deliver (requestListener cfg info counters req) .timeout).counters.requestCount
        = counters.requestCount := by
  obtain ⟨targetPath, ht⟩ := targetPathOf_isSome req.url hf.2
  rw [requestListener_forwarded cfg info counters req targetPath hf ht,
    deliver_timeout_forwarded]
  exact ⟨rfl, rfl, rfl, rfl⟩

/-! ## The header rewrite of `createProxyOptions` -/

theorem not_mem_of_lowerCased (keys : List String) (k : String)
    (hlower : ∀ k ∈ keys, toLowerCase k = k) (hk : toLowerCase k ≠ k) : k ∉ keys :=
  fun h => hk (hlower k h)

theorem createProxyOptions_headers (cfg : Config) (req : IncomingMessage) (targetPath : String)
    (hlower : ∀ k ∈ req.headers.map Prod.fst, toLowerCase k = k) :
    (createProxyOptions cfg req targetPath).headers
      = (JsObject.spread [] req.headers ++ [("Host", .single cfg.TARGET_HOST)])
        ++ [("Connection", .single "close")] := by
  have hHost : "Host" ∉ (JsObject.spread [] req.headers).map Prod.fst := by
    rw [JsObject.mem_keys_spread_nil]
    exact not_mem_of_lowerCased _ _ hlower (by decide)
  have hConn : "Connection" ∉
      (JsObject.spread [] req.headers ++ [("Host", HeaderValue.single cfg.TARGET_HOST)]).map
        Prod.fst := by
    rw [List.map_append, List.mem_append, JsObject.mem_keys_spread_nil]
    rintro (h | h)
    · exact not_mem_of_lowerCased _ _ hlower (by decide) h
    · simp at h
  unfold createProxyOptions
  simp only
  rw [JsObject.set_of_not_mem _ _ _ hHost, JsObject.set_of_not_mem _ _ _ hConn]

theorem clientHeaders_createProxyOptions (cfg : Config) (req : IncomingMessage)
    (targetPath : String) (hlower : ∀ k ∈ req.headers.map Prod.fst, toLowerCase k = k) :
    ∃ store : HeaderStore,
      ((store.map Prod.fst).Nodup ∧ ∀ e ∈ store, e.1 = toLowerCase e.2.1)
      ∧ clientHeaders (createProxyOptions cfg req targetPath).headers
        = setHeader (setHeader store "Host" (.single cfg.TARGET_HOST)) "Connection"
            (.single "close") := by
  have hHost : "Host" ∉ (JsObject.spread [] req.headers).map Prod.fst := by
    rw [JsObject.mem_keys_spread_nil]
    exact not_mem_of_lowerCased _ _ hlower (by decide)
  have hConn : "Connection" ∉
      (JsObject.spread [] req.headers ++ [("Host", HeaderValue.single cfg.TARGET_HOST)]).map
        Prod.fst := by
    rw [List.map_append, List.mem_append, JsObject.mem_keys_spread_nil]
    rintro (h | h)
    · exact not_mem_of_lowerCased _ _ hlower (by decide) h
    · simp at h
  have hgH : JsObject.get (createProxyOptions cfg req targetPath).headers "Host"
      = some (.single cfg.TARGET_HOST) := by
    unfold createProxyOptions
    simp only
    rw [JsObject.get_set, JsObject.get_set]
    simp
  have hgC : JsObject.get (createProxyOptions cfg req targetPath).headers "Connection"
      = some (.single "close") := by
    unfold createProxyOptions
    simp only
    rw [JsObject.get_set]
    simp
  refine ⟨(JsObject.ownKeys (JsObject.spread [] req.headers)).foldl
      (fun store k => match JsObject.get (createProxyOptions cfg req targetPath).headers k with
        | some v => setHeader store k v
        | none => store) [], ?_, ?_⟩
  · apply store_kept_foldl
    · intro store k h
      cases JsObject.get (createProxyOptions cfg req targetPath).headers k with
      | none => exact h
      | some v => exact store_kept_setHeader store k v h
    · simp
  · unfold clientHeaders
    rw [createProxyOptions_headers cfg req targetPath hlower,
      JsObject.ownKeys_append_singleton _ _ _ hConn (by decide),
      JsObject.ownKeys_append_singleton _ _ _ hHost (by decide),
      ← createProxyOptions_headers cfg req targetPath hlower,
      List.foldl_append, List.foldl_append]
    simp only [List.foldl_cons, List.foldl_nil, hgH, hgC]

/-- C2: for every inbound request whose header names are lower-cased, the
header set `createProxyOptions` builds, read the way the HTTP client reads it
(names compared case-insensitively, the last write of a name wins), sends
exactly one `Host` line, and its value is `TARGET_HOST`, whatever `host` the
inbound request carried. -/
theorem createProxyOptions_host (cfg : Config) (req : IncomingMessage) (targetPath : String)
    (hlower : ∀ k ∈ req.headers.map Prod.fst, toLowerCase k = k) :
    (headerLines (clientHeaders (createProxyOptions cfg req targetPath).headers)).filter
        (fun line => toLowerCase line.1 = "host")
      = [("Host", .single cfg.TARGET_HOST)] := by
  obtain ⟨store, hkept, heq⟩ := clientHeaders_createProxyOptions cfg req targetPath hlower
  rw [heq]
  apply lines_of_name
  · exact store_kept_setHeader _ _ _ (store_kept_setHeader _ _ _ hkept)
  · unfold setHeader
    rw [JsObject.get_set, JsObject.get_set]
    have h1 : ¬ "host" = toLowerCase "Connection" := by decide
    have h2 : "host" = toLowerCase "Host" := by decide
    rw [if_neg h1, if_pos h2]

theorem createProxyOptions_host_witness :
    (∀ k ∈ sampleRequest.headers.map Prod.fst, toLowerCase k = k)
      ∧ (headerLines (clientHeaders
            (createProxyOptions defaultConfig sampleRequest
              "/cgi-bin/message/send?access_token=TOKEN").headers)).filter
          (fun line => toLowerCase line.1 = "host")
        = [("Host", .single "qyapi.weixin.qq.com")] :=
  ⟨by decide, createProxyOptions_host defaultConfig sampleRequest _ (by decide)⟩

theorem get_foldl_setHeader_other (f : String → Option HeaderValue) (ks : List String)
    (store : HeaderStore) (n : String) (hks : ∀ k ∈ ks, toLowerCase k ≠ n) :
    JsObject.get (ks.foldl (fun store k => match f k with
        | some v => setHeader store k v
        | none => store) store) n
      = JsObject.get store n := by
  induction ks generalizing store with
  | nil => rfl
  | cons k rest ih =>
    rw [List.foldl_cons, ih _ (fun j hj => hks j (List.mem_cons_of_mem _ hj))]
    have hk : ¬ n = toLowerCase k := fun h => hks k (List.mem_cons_self _ _) h.symm
    cases f k with
    | none => rfl
    | some v =>
      simp only [setHeader]
      rw [JsObject.get_set, if_neg hk]

/-- The header rewrite adds no `X-Forwarded-For` and no `X-Forwarded-Proto`
of its own: when the inbound request has none, the outbound header set has
none. -/
theorem createProxyOptions_adds_no_forwarded (cfg : Config) (req : IncomingMessage)
    (targetPath name : String) (hlower : ∀ k ∈ req.headers.map Prod.fst, toLowerCase k = k)
    (hname : name = "x-forwarded-for" ∨ name = "x-forwarded-proto")
    (hno : name ∉ req.headers.map Prod.fst) :
    getHeader (clientHeaders (createProxyOptions cfg req targetPath).headers) name = none := by
  have hlow : toLowerCase name = name := by
    rcases hname with h | h <;> rw [h] <;> decide
  have hH : toLowerCase "Host" ≠ name := by
    rcases hname with h | h <;> rw [h] <;> decide
  have hC : toLowerCase "Connection" ≠ name := by
    rcases hname with h | h <;> rw [h] <;> decide
  unfold getHeader clientHeaders
  rw [hlow, get_foldl_setHeader_other, JsObject.get_nil]
  · rfl
  · intro k hk
    rw [JsObject.mem_ownKeys, createProxyOptions_headers cfg req targetPath hlower] at hk
    simp only [List.map_append, List.map_cons, List.map_nil, List.mem_append, List.mem_singleton,
      JsObject.mem_keys_spread_nil] at hk
    rcases hk with (hk | hk) | hk
    · rw [hlower k hk]
      exact fun h => hno (h ▸ hk)
    · rw [hk]
      exact hH
    · rw [hk]
      exact hC

/-- C7: an `x-forwarded-for` and an `x-forwarded-proto` header of the inbound
request are copied into the outbound header set. -/
theorem createProxyOptions_copies_forwarded (cfg : Config) (targetPath : String) :
    getHeader (clientHeaders (createProxyOptions cfg
        { method := "GET", url := "/cgi-bin/gettoken",
          headers := [("host", .single "127.0.0.1:3120"),
            ("x-forwarded-for", .single "203.0.113.7"),
            ("x-forwarded-proto", .single "http")] } targetPath).headers) "X-Forwarded-For"
        = some (.single "203.0.113.7")
      ∧ getHeader (clientHeaders (createProxyOptions cfg
        { method := "GET", url := "/cgi-bin/gettoken",
          headers := [("host", .single "127.0.0.1:3120"),
            ("x-forwarded-for", .single "203.0.113.7"),
            ("x-forwarded-proto", .single "http")] } targetPath).headers) "X-Forwarded-Proto"
        = some (.single "http") :=
  ⟨rfl, rfl⟩

/-! ## Requests outside the forwarded prefix -/

theorem requestListener_reject (cfg : Config) (info : ProcessInfo) (counters : Counters)
    (req : IncomingMessage) (hm : req.method ≠ "OPTIONS") (h1 : req.url ≠ "/health")
    (h2 : req.url ≠ "/stats") (h3 : req.url ≠ "/") (h4 : req.url ≠ "")
    (hs : startsWith req.url "/cgi-bin/" = false) :
    requestListener cfg info counters req
      = { counters := counters
          res :=
            { outHeaders := storeWith "text/plain; charset=utf-8"
              head := some (404, storeWith "text/plain; charset=utf-8")
              body := "Not Found - Only /cgi-bin/ paths are proxyied"
              finished := true }
          proxyReq := none, heap := Heap.empty, proxyRes := none, responseHeaders := none
          requestPiped := false, responsePiped := false } := by
  unfold requestListener
  simp only [setCorsHeaders_fresh, hm, h1, h2, h3, h4, if_false, or_self, handleProxyRequest,
    hs, Bool.not_false, if_true]
  rw [writeHead_cors_contentType 404 _ (by decide) (by decide)]
  simp [ServerResponse.endResponse, corsResponse]

/-- C1: a request that is not a preflight, whose URL is none of `/health`,
`/stats`, `/` and the empty string and does not start with `/cgi-bin/`, is
answered with status 404 and a `text/plain` body; no outbound request is
created and both counters stay as they were. -/
theorem requestListener_not_found (cfg : Config) (info : ProcessInfo) (counters : Counters)
    (req : IncomingMessage) (hm : req.method ≠ "OPTIONS") (h1 : req.url ≠ "/health")
    (h2 : req.url ≠ "/stats") (h3 : req.url ≠ "/") (h4 : req.url ≠ "")
    (hs : startsWith req.url "/cgi-bin/" = false) :
    (requestListener cfg info counters req).res.head
        = some (404, storeWith "text/plain; charset=utf-8")
      ∧ getHeader (storeWith "text/plain; charset=utf-8") "Content-Type"
        = some (.single "text/plain; charset=utf-8")
      ∧ (requestListener cfg info counters req).res.body
        = "Not Found - Only /cgi-bin/ paths are proxyied"
      ∧ (requestListener cfg info counters req).res.finished = true
      ∧ (requestListener cfg info counters req).proxyReq = none
      ∧ (requestListener cfg info counters req).counters = counters := by
  rw [requestListener_reject cfg info counters req hm h1 h2 h3 h4 hs]
  exact ⟨rfl, rfl, rfl, rfl, rfl, rfl⟩

theorem requestListener_not_found_witness :
    (requestListener defaultConfig sampleInfo Counters.initial
        { method := "GET", url := "/admin/../cgi-bin/gettoken", headers := [] }).res.head
        = some (404, storeWith "text/plain; charset=utf-8")
      ∧ getHeader (storeWith "text/plain; charset=utf-8") "Content-Type"
        = some (.single "text/plain; charset=utf-8")
      ∧ (requestListener defaultConfig sampleInfo Counters.initial
        { method := "GET", url := "/admin/../cgi-bin/gettoken", headers := [] }).res.body
        = "Not Found - Only /cgi-bin/ paths are proxyied"
      ∧ (requestListener defaultConfig sampleInfo Counters.initial
        { method := "GET", url := "/admin/../cgi-bin/gettoken", headers := [] }).res.finished
        = true
      ∧ (requestListener defaultConfig sampleInfo Counters.initial
        { method := "GET", url := "/admin/../cgi-bin/gettoken", headers := [] }).proxyReq = none
      ∧ (requestListener defaultConfig sampleInfo Counters.initial
        { method := "GET", url := "/admin/../cgi-bin/gettoken", headers := [] }).counters
        = Counters.initial :=
  requestListener_not_found defaultConfig sampleInfo Counters.initial
    { method := "GET", url := "/admin/../cgi-bin/gettoken", headers := [] }
    (by decide) (by decide) (by decide) (by decide) (by decide) (by decide)

/-! ## Transport errors and timeouts -/

/-- C5: when the outbound request of a forwarded request emits `error` with
message `m` as its first event, the client receives status 502 with a JSON
content type and the body `JSON.stringify` gives for `errcode: -1` and
`errmsg: "Proxy error: " + m`; `errorCount` goes up by one and `requestCount`
stays. -/
theorem proxy_error_response (cfg : Config) (info : ProcessInfo) (counters : Counters)
    (req : IncomingMessage) (m : String) (hf : Forwarded req) :
    (deliver (requestListener cfg info counters req) (.error m)).res.head
        = some (502, storeWith "application/json; charset=utf-8")
      ∧ getHeader (storeWith "application/json; charset=utf-8") "Content-Type"
        = some (.single "application/json; charset=utf-8")
      ∧ (deliver (requestListener cfg info counters req) (.error m)).res.body
        = Json.stringify (.obj [("errcode", .int (-1)), ("errmsg", .str ("Proxy error: " ++ m))])
      ∧ (deliver (requestListener cfg info counters req) (.error m)).res.body
        = "\x7b\"errcode\":-1,\"errmsg\":" ++ quoteJSONString ("Proxy error: " ++ m) ++ "\x7d"
      ∧ (deliver (requestListener cfg info counters req) (.error m)).res.finished = true
      ∧ (deliver (requestListener cfg info counters req) (.error m)).counters.errorCount
        = counters.errorCount + 1
      ∧ (deliver (requestListener cfg info counters req) (.error m)).counters.requestCount
        = counters.requestCount := by
  obtain ⟨targetPath, ht⟩ := targetPathOf_isSome req.url hf.2
  rw [requestListener_forwarded cfg info counters req targetPath hf ht]
  rw [deliver_error_forwarded, onProxyError_forwarded]
  exact ⟨rfl, rfl, rfl, errorEnvelope_eq _, rfl, rfl, rfl⟩

theorem proxy_error_response_witness :
    Forwarded sampleRequest
      ∧ (deliver (requestListener defaultConfig sampleInfo Counters.initial sampleRequest)
          (.error "connect ECONNREFUSED 10.0.0.1:443")).res.body
        = "\x7b\"errcode\":-1,\"errmsg\":\"Proxy error: connect ECONNREFUSED 10.0.0.1:443\"\x7d" :=
  ⟨by decide,
    (proxy_error_response defaultConfig sampleInfo Counters.initial sampleRequest
      "connect ECONNREFUSED 10.0.0.1:443" (by decide)).2.2.2.1.trans (by decide)⟩

theorem timeout_episode_witness :
    Forwarded sampleRequest
      ∧ (deliver (requestListener defaultConfig sampleInfo Counters.initial sampleRequest)
          .timeout).counters.errorCount = 3 :=
  ⟨by decide,
    (timeout_episode defaultConfig sampleInfo Counters.initial sampleRequest
      (by decide)).2.2.1⟩

/-! ## The upstream response head -/

/-- Reading a lower-cased name after `writeHead` has passed an object with
lower-cased, non-empty names through `setHeader`. -/
theorem get_foldl_setHeader (f : String → Option HeaderValue) (ks : List String)
    (store : HeaderStore) (n : String) (hks : ∀ k ∈ ks, LowerCasedName k) :
    JsObject.get (ks.foldl (fun store k =>
        if k = "" then store
        else match f k with
          | some v => setHeader store k v
          | none => store) store) n
      = if n ∈ ks then (match f n with
          | some v => some (n, v)
          | none => JsObject.get store n) else JsObject.get store n := by
  have h := JsObject.get_foldl_set (fun k => (f k).map (fun v => (k, v))) ks store n
  refine Eq.trans (congrArg (fun o => JsObject.get o n) (List.foldl_ext _ _ store ?_))
    (h.trans ?_)
  · intro st k hk
    obtain ⟨hne, hlow⟩ := hks k hk
    rw [if_neg hne]
    cases f k with
    | none => rfl
    | some v => simp only [setHeader, hlow, Option.map_some']
  · cases f n <;> rfl

theorem writeHead_cors (statusCode : Nat) (headers : JsObject HeaderValue)
    (h1 : 100 ≤ statusCode) (h2 : statusCode ≤ 999) :
    ∃ store, corsResponse.writeHead statusCode headers
      = .ok { corsResponse with outHeaders := store, head := some (statusCode, store) }
      ∧ ((∀ k ∈ headers.map Prod.fst, LowerCasedName k) →
          ∀ n, JsObject.get store n = match JsObject.get headers n with
            | some v => some (n, v)
            | none => JsObject.get corsStore n) := by
  unfold ServerResponse.writeHead
  have hs : corsResponse.headersSent = false := rfl
  have hr : ¬ (statusCode < 100 ∨ statusCode > 999) := by omega
  rw [hs, if_neg hr]
  refine ⟨_, rfl, ?_⟩
  intro hnames n
  have hks : ∀ k ∈ JsObject.ownKeys headers, LowerCasedName k :=
    fun k hk => hnames k ((JsObject.mem_ownKeys headers k).1 hk)
  show JsObject.get ((JsObject.ownKeys headers).foldl _ corsStore) n = _
  rw [get_foldl_setHeader (JsObject.get headers) _ _ n hks]
  by_cases hn : n ∈ JsObject.ownKeys headers
  · rw [if_pos hn]
  · rw [if_neg hn]
    rw [JsObject.mem_ownKeys, ← JsObject.get_eq_none_iff] at hn
    rw [hn]

theorem get_responseHeaders (H : JsObject HeaderValue) (n : String) :
    JsObject.get (JsObject.delete (JsObject.spread [] H) "transfer-encoding") n
      = if n = "transfer-encoding" then none else JsObject.get H n := by
  rw [JsObject.get_delete, JsObject.get_spread_nil]

theorem keys_responseHeaders (H : JsObject HeaderValue)
    (hnames : ∀ k ∈ H.map Prod.fst, LowerCasedName k) :
    ∀ k ∈ (JsObject.delete (JsObject.spread [] H) "transfer-encoding").map Prod.fst,
      LowerCasedName k := by
  intro k hk
  apply hnames
  rw [← JsObject.get_isSome_iff] at hk ⊢
  rw [get_responseHeaders] at hk
  by_cases h : k = "transfer-encoding"
  · simp [h] at hk
  · simpa [h] using hk

theorem deliver_response_forwarded (cfg : Config) (counters : Counters) (req : IncomingMessage)
    (targetPath : String) (s : Nat) (H : JsObject HeaderValue) (h1 : 100 ≤ s) (h2 : s ≤ 999) :
    ∃ store, deliver (forwardedExchange cfg counters req targetPath) (.response ⟨s, H⟩)
      = { counters := logRequest counters
          res := { corsResponse with outHeaders := store, head := some (s, store) }
          proxyReq := some
            { clientRequest cfg (createProxyOptions cfg req targetPath) with
              responseReceived := true }
          heap :=
            { objects := [H, JsObject.delete (JsObject.spread [] H) "transfer-encoding"] }
          proxyRes := some { statusCode := s, headers := 0 }
          responseHeaders := some 1
          requestPiped := true
          responsePiped := true }
      ∧ ((∀ k ∈ H.map Prod.fst, LowerCasedName k) →
          ∀ n, JsObject.get store n
            = match (if n = "transfer-encoding" then none else JsObject.get H n) with
              | some v => some (n, v)
              | none => JsObject.get corsStore n) := by
  obtain ⟨store, hw, hget⟩ := writeHead_cors s
    (JsObject.delete (JsObject.spread [] H) "transfer-encoding") h1 h2
  refine ⟨store, ?_, ?_⟩
  · have hcopy : ((((Heap.empty.alloc H).1.spreadLiteral (Heap.empty.alloc H).2).1.deleteProperty
          ((Heap.empty.alloc H).1.spreadLiteral (Heap.empty.alloc H).2).2
          "transfer-encoding").read
            ((Heap.empty.alloc H).1.spreadLiteral (Heap.empty.alloc H).2).2)
        = JsObject.delete (JsObject.spread [] H) "transfer-encoding" := rfl
    unfold deliver emit
    simp only [forwardedExchange, Option.map_some', onProxyResponse, hcopy, hw, nextTick,
      clientRequest]
    rfl
  · intro hnames n
    rw [hget (keys_responseHeaders H hnames) n, get_responseHeaders]

/-- C8, as the code has it: when the upstream response head of a forwarded
request arrives with a status `s` in 100..999 and a header map `H` of
lower-cased names, the head written to the client has status `s`, carries
every header of `H` other than `transfer-encoding` with its upstream value and
carries no `transfer-encoding`; the `delete` acts on a copy, an object of its
own that afterwards has no `transfer-encoding`, and the `headers` object of
the upstream response still is `H`. -/
theorem response_head_relayed (cfg : Config) (info : ProcessInfo) (counters : Counters)
    (req : IncomingMessage) (s : Nat) (H : JsObject HeaderValue) (hf : Forwarded req)
    (hnames : ∀ k ∈ H.map Prod.fst, LowerCasedName k) (h1 : 100 ≤ s) (h2 : s ≤ 999) :
    ∃ store proxyRes copy,
      (deliver (requestListener cfg info counters req) (.response ⟨s, H⟩)).res.head
          = some (s, store)
        ∧ (∀ k v, JsObject.get H k = some v → k ≠ "transfer-encoding" →
            getHeader store k = some v ∧ (k, v) ∈ headerLines store)
        ∧ getHeader store "transfer-encoding" = none
        ∧ (deliver (requestListener cfg info counters req) (.response ⟨s, H⟩)).proxyRes
          = some proxyRes
        ∧ proxyRes.statusCode = s
        ∧ (deliver (requestListener cfg info counters req) (.response ⟨s, H⟩)).heap.read
            proxyRes.headers = H
        ∧ (deliver (requestListener cfg info counters req) (.response ⟨s, H⟩)).responseHeaders
          = some copy
        ∧ copy ≠ proxyRes.headers
        ∧ JsObject.get
            ((deliver (requestListener cfg info counters req) (.response ⟨s, H⟩)).heap.read copy)
            "transfer-encoding" = none := by
  obtain ⟨targetPath, ht⟩ := targetPathOf_isSome req.url hf.2
  rw [requestListener_forwarded cfg info counters req targetPath hf ht]
  obtain ⟨store, hx, hget⟩ := deliver_response_forwarded cfg counters req targetPath s H h1 h2
  rw [hx]
  refine ⟨store, { statusCode := s, headers := 0 }, 1, rfl, ?_, ?_, rfl, rfl, rfl, rfl,
    Nat.one_ne_zero, ?_⟩
  · intro k v hk hne
    have hlow : toLowerCase k = k := by
      have hmem : k ∈ H.map Prod.fst := by
        rw [← JsObject.get_isSome_iff, hk]
        rfl
      exact (hnames k hmem).2
    have hgk : JsObject.get store k = some (k, v) := by
      rw [hget hnames k, if_neg hne, hk]
    constructor
    · unfold getHeader
      rw [hlow, hgk]
      rfl
    · unfold headerLines
      exact List.mem_map_of_mem Prod.snd (JsObject.mem_of_get store k (k, v) hgk)
  · unfold getHeader
    have hte : toLowerCase "transfer-encoding" = "transfer-encoding" := by decide
    rw [hte, hget hnames "transfer-encoding", if_pos rfl]
    rfl
  · show JsObject.get (JsObject.delete (JsObject.spread [] H) "transfer-encoding")
      "transfer-encoding" = none
    rw [get_responseHeaders, if_pos rfl]

theorem response_head_relayed_witness :
    Forwarded sampleRequest
      ∧ (∀ k ∈ sampleUpstreamHeaders.map Prod.fst, LowerCasedName k)
      ∧ ∃ store proxyRes copy,
        (deliver (requestListener defaultConfig sampleInfo Counters.initial sampleRequest)
            (.response ⟨200, sampleUpstreamHeaders⟩)).res.head = some (200, store)
          ∧ (∀ k v, JsObject.get sampleUpstreamHeaders k = some v →
              k ≠ "transfer-encoding" →
              getHeader store k = some v ∧ (k, v) ∈ headerLines store)
          ∧ getHeader store "transfer-encoding" = none
          ∧ (deliver (requestListener defaultConfig sampleInfo Counters.initial sampleRequest)
              (.response ⟨200, sampleUpstreamHeaders⟩)).proxyRes = some proxyRes
          ∧ proxyRes.statusCode = 200
          ∧ (deliver (requestListener defaultConfig sampleInfo Counters.initial sampleRequest)
              (.response ⟨200, sampleUpstreamHeaders⟩)).heap.read proxyRes.headers
            = sampleUpstreamHeaders
          ∧ (deliver (requestListener defaultConfig sampleInfo Counters.initial sampleRequest)
              (.response ⟨200, sampleUpstreamHeaders⟩)).responseHeaders = some copy
          ∧ copy ≠ proxyRes.headers
          ∧ JsObject.get
              ((deliver (requestListener defaultConfig sampleInfo Counters.initial
                sampleRequest) (.response ⟨200, sampleUpstreamHeaders⟩)).heap.read copy)
              "transfer-encoding" = none :=
  ⟨by decide, by decide,
    response_head_relayed defaultConfig sampleInfo Counters.initial sampleRequest 200
      sampleUpstreamHeaders (by decide) (by decide) (by decide) (by decide)⟩

/-- C8 fails as stated: an upstream response head with status 99 makes
`res.writeHead` throw inside the callback, so no response head is written to
the client; the exception is counted as an error and no request is counted. -/
theorem response_head_not_relayed_below_100 :
    Forwarded sampleRequest
      ∧ (∀ k ∈ sampleUpstreamHeaders.map Prod.fst, LowerCasedName k)
      ∧ (deliver (requestListener defaultConfig sampleInfo Counters.initial sampleRequest)
          (.response ⟨99, sampleUpstreamHeaders⟩)).res.head = none
      ∧ (deliver (requestListener defaultConfig sampleInfo Counters.initial sampleRequest)
          (.response ⟨99, sampleUpstreamHeaders⟩)).counters
        = { requestCount := 0, errorCount := 1 } := by
  refine ⟨by decide, by decide, by rfl, by decide⟩

/-! ## CORS headers -/

theorem corsHeaders_corsStore : CorsHeaders corsStore := ⟨rfl, rfl, rfl⟩

theorem corsHeaders_storeWith (contentType : String) : CorsHeaders (storeWith contentType) :=
  ⟨rfl, rfl, rfl⟩

theorem requestListener_local (cfg : Config) (info : ProcessInfo) (counters : Counters)
    (req : IncomingMessage) (hf : ¬ Forwarded req) :
    ∃ status store, (requestListener cfg info counters req).res.head = some (status, store)
      ∧ CorsHeaders store := by
  by_cases hm : req.method = "OPTIONS"
  · refine ⟨204, corsStore, ?_, corsHeaders_corsStore⟩
    unfold requestListener
    simp only [setCorsHeaders_fresh, hm, if_true]
    rfl
  by_cases h1 : req.url = "/health"
  · refine ⟨200, storeWith "application/json; charset=utf-8", ?_, corsHeaders_storeWith _⟩
    unfold requestListener
    simp only [setCorsHeaders_fresh, hm, h1, if_true, if_false, handleHealthCheck]
    rw [writeHead_cors_contentType 200 _ (by decide) (by decide)]
    simp [ServerResponse.endResponse, corsResponse]
  by_cases h2 : req.url = "/stats"
  · refine ⟨200, storeWith "application/json; charset=utf-8", ?_, corsHeaders_storeWith _⟩
    unfold requestListener
    simp only [setCorsHeaders_fresh, hm, h1, h2, if_true, if_false, handleStats]
    rw [writeHead_cors_contentType 200 _ (by decide) (by decide)]
    simp [ServerResponse.endResponse, corsResponse]
  by_cases h3 : req.url = "/" ∨ req.url = ""
  · refine ⟨200, storeWith "text/plain; charset=utf-8", ?_, corsHeaders_storeWith _⟩
    unfold requestListener
    simp only [setCorsHeaders_fresh, hm, h1, h2, h3, if_true, if_false, handleRoot]
    rw [writeHead_cors_contentType 200 _ (by decide) (by decide)]
    simp [ServerResponse.endResponse, corsResponse]
  · have hs : startsWith req.url "/cgi-bin/" = false := by
      cases h : startsWith req.url "/cgi-bin/" with
      | false => rfl
      | true => exact absurd ⟨hm, h⟩ hf
    rw [not_or] at h3
    rw [requestListener_reject cfg info counters req hm h1 h2 h3.1 h3.2 hs]
    exact ⟨404, _, rfl, corsHeaders_storeWith _⟩

/-- C9, as the code has it: every response the listener writes by itself (the
preflight answer, the three status endpoints, the 404, the 502 and the 504)
carries the three CORS headers with the listener's values; on a relayed
upstream response each of the three carries the listener's value unless the
upstream header map has a header of that name, whose value is then sent. -/
theorem cors_headers_written (cfg : Config) (info : ProcessInfo) (counters : Counters)
    (req : IncomingMessage) :
    (¬ Forwarded req →
        ∃ status store, (requestListener cfg info counters req).res.head = some (status, store)
          ∧ CorsHeaders store)
      ∧ (Forwarded req →
        (∀ m, ∃ status store,
          (deliver (requestListener cfg info counters req) (.error m)).res.head
              = some (status, store)
            ∧ CorsHeaders store)
        ∧ (∃ status store,
          (deliver (requestListener cfg info counters req) .timeout).res.head
              = some (status, store)
            ∧ CorsHeaders store)
        ∧ (∀ s H, 100 ≤ s → s ≤ 999 → (∀ k ∈ H.map Prod.fst, LowerCasedName k) →
          ∃ store,
            (deliver (requestListener cfg info counters req) (.response ⟨s, H⟩)).res.head
                = some (s, store)
              ∧ getHeader store "Access-Control-Allow-Origin"
                = some ((JsObject.get H "access-control-allow-origin").getD (.single "*"))
              ∧ getHeader store "Access-Control-Allow-Methods"
                = some ((JsObject.get H "access-control-allow-methods").getD
                    (.single "GET, POST, OPTIONS"))
              ∧ getHeader store "Access-Control-Allow-Headers"
                = some ((JsObject.get H "access-control-allow-headers").getD
                    (.single "Content-Type, Authorization")))) := by
  refine ⟨requestListener_local cfg info counters req, ?_⟩
  intro hf
  obtain ⟨targetPath, ht⟩ := targetPathOf_isSome req.url hf.2
  rw [requestListener_forwarded cfg info counters req targetPath hf ht]
  refine ⟨?_, ?_, ?_⟩
  · intro m
    rw [deliver_error_forwarded, onProxyError_forwarded]
    exact ⟨502, _, rfl, corsHeaders_storeWith _⟩
  · rw [deliver_timeout_forwarded]
    exact ⟨504, _, rfl, corsHeaders_storeWith _⟩
  · intro s H h1 h2 hnames
    obtain ⟨store, hx, hget⟩ := deliver_response_forwarded cfg counters req targetPath s H h1 h2
    have key : ∀ name n : String, ∀ d : String × HeaderValue, toLowerCase name = n →
        n ≠ "transfer-encoding" → JsObject.get corsStore n = some d →
        getHeader store name = some ((JsObject.get H n).getD d.2) := by
      intro name n d hlow hne hd
      unfold getHeader
      rw [hlow, hget hnames n, if_neg hne]
      cases JsObject.get H n with
      | none => simp only [hd, Option.map_some', Option.getD_none]
      | some v => rfl
    refine ⟨store, by rw [hx], ?_, ?_, ?_⟩
    · exact key _ "access-control-allow-origin" _ (by decide) (by decide) rfl
    · exact key _ "access-control-allow-methods" _ (by decide) (by decide) rfl
    · exact key _ "access-control-allow-headers" _ (by decide) (by decide) rfl

theorem cors_headers_written_witness :
    Forwarded sampleRequest
      ∧ ∃ store,
        (deliver (requestListener defaultConfig sampleInfo Counters.initial sampleRequest)
            (.response ⟨200, sampleUpstreamHeaders⟩)).res.head = some (200, store)
          ∧ getHeader store "Access-Control-Allow-Origin" = some (.single "*") := by
  refine ⟨by decide, ?_⟩
  obtain ⟨store, h1, h2, _⟩ :=
    ((cors_headers_written defaultConfig sampleInfo Counters.initial sampleRequest).2
      (by decide)).2.2 200 sampleUpstreamHeaders (by decide) (by decide) (by decide)
  exact ⟨store, h1, h2⟩

/-- C9 fails as stated: a relayed upstream response that carries its own
`access-control-allow-origin` reaches the client with the upstream value, not
with `*`. -/
theorem cors_origin_overridden :
    ∃ store,
      (deliver (requestListener defaultConfig sampleInfo Counters.initial sampleRequest)
          (.response ⟨200,
            [("access-control-allow-origin", .single "https://work.weixin.qq.com")]⟩)).res.head
          = some (200, store)
        ∧ getHeader store "Access-Control-Allow-Origin"
          = some (.single "https://work.weixin.qq.com")
        ∧ ¬ CorsHeaders store := by
  refine ⟨_, rfl, rfl, ?_⟩
  intro h
  exact absurd h.1 (by decide)

/-! ## The counters over a run of forwarding attempts -/

theorem runAttempt_forwarded (cfg : Config) (info : ProcessInfo) (counters : Counters)
    (req : IncomingMessage) (e : UpstreamEvent) (hf : Forwarded req) (hv : e.ValidStatus) :
    runAttempt cfg info counters (req, [e])
      = { requestCount := counters.requestCount + (if e.isResponse then 1 else 0)
          errorCount := counters.errorCount
            + (if e.isError then 1 else 0) + 3 * (if e.isTimeout then 1 else 0) } := by
  obtain ⟨targetPath, ht⟩ := targetPathOf_isSome req.url hf.2
  unfold runAttempt
  simp only [List.foldl_cons, List.foldl_nil]
  rw [requestListener_forwarded cfg info counters req targetPath hf ht]
  cases e with
  | response head =>
    obtain ⟨s, H⟩ := head
    obtain ⟨store, hx, _⟩ :=
      deliver_response_forwarded cfg counters req targetPath s H hv.1 hv.2
    rw [hx]
    rfl
  | error message =>
    rw [deliver_error_forwarded, onProxyError_forwarded]
    rfl
  | timeout =>
    rw [deliver_timeout_forwarded]
    rfl

theorem runAttempts_counters (cfg : Config) (info : ProcessInfo)
    (attempts : List Attempt) (counters : Counters)
    (h : ∀ a ∈ attempts, Forwarded a.1 ∧ a.SingleOutcome) :
    (runAttempts cfg info counters attempts).requestCount
        = counters.requestCount + attempts.countP (fun a => a.gotResponse)
      ∧ (runAttempts cfg info counters attempts).errorCount
        = counters.errorCount + attempts.countP (fun a => a.2.any UpstreamEvent.isError)
          + 3 * attempts.countP (fun a => a.timedOut) := by
  induction attempts generalizing counters with
  | nil => simp [runAttempts]
  | cons a rest ih =>
    obtain ⟨req, events⟩ := a
    obtain ⟨hfw, e, he, hv⟩ := h (req, events) (List.mem_cons_self _ _)
    simp only at he
    subst he
    have hrest : ∀ a ∈ rest, Forwarded a.1 ∧ a.SingleOutcome :=
      fun a hmem => h a (List.mem_cons_of_mem _ hmem)
    have step := ih (runAttempt cfg info counters (req, [e])) hrest
    unfold runAttempts at step ⊢
    rw [List.foldl_cons]
    rw [runAttempt_forwarded cfg info counters req e hfw hv] at step ⊢
    rw [step.1, step.2]
    simp only [List.countP_cons, Attempt.gotResponse, Attempt.timedOut, List.any_cons,
      List.any_nil, Bool.or_false]
    constructor
    · cases e <;> simp [UpstreamEvent.isResponse]
      omega
    · cases e <;> simp [UpstreamEvent.isError, UpstreamEvent.isTimeout] <;> omega

/-- C6, as the code has it: starting from both counters at zero, after any
finite sequence of forwarding attempts, each with one upstream outcome (a
response head with status 100..999 and nothing after it, a transport error
before any response head, or a timeout before any response head),
`requestCount` equals the number of attempts that got a response head; and
when no attempt timed out, `errorCount` equals the number of attempts that
got no response head, that is, the failed ones. -/
theorem counters_after_attempts (cfg : Config) (info : ProcessInfo)
    (attempts : List Attempt) (h : ∀ a ∈ attempts, Forwarded a.1 ∧ a.SingleOutcome) :
    (runAttempts cfg info Counters.initial attempts).requestCount
        = attempts.countP (fun a => a.gotResponse)
      ∧ ((∀ a ∈ attempts, a.timedOut = false) →
        (runAttempts cfg info Counters.initial attempts).errorCount
          = attempts.countP (fun a => !a.gotResponse)) := by
  obtain ⟨h1, h2⟩ := runAttempts_counters cfg info attempts Counters.initial h
  refine ⟨by simpa [Counters.initial] using h1, ?_⟩
  intro hno
  have ht : attempts.countP (fun a => a.timedOut) = 0 := by
    rw [List.countP_eq_zero]
    intro a ha
    simp [hno a ha]
  have he : attempts.countP (fun a => a.2.any UpstreamEvent.isError)
      = attempts.countP (fun a => !a.gotResponse) := by
    apply List.countP_congr
    intro a ha
    obtain ⟨_, e, hev, _⟩ := h a ha
    have hto := hno a ha
    unfold Attempt.timedOut at hto
    unfold Attempt.gotResponse
    rw [hev] at hto ⊢
    cases e <;> simp_all [UpstreamEvent.isError, UpstreamEvent.isResponse,
      UpstreamEvent.isTimeout]
  rw [h2, ht, he]
  simp [Counters.initial]

theorem counters_after_attempts_witness :
    (∀ a ∈ [(sampleRequest, [UpstreamEvent.response ⟨200, sampleUpstreamHeaders⟩]),
        (sampleRequest, [UpstreamEvent.error "read ECONNRESET"]),
        (sampleRequest, [UpstreamEvent.response ⟨404, []⟩])],
      Forwarded a.1 ∧ Attempt.SingleOutcome a)
      ∧ (runAttempts defaultConfig sampleInfo Counters.initial
          [(sampleRequest, [UpstreamEvent.response ⟨200, sampleUpstreamHeaders⟩]),
            (sampleRequest, [UpstreamEvent.error "read ECONNRESET"]),
            (sampleRequest, [UpstreamEvent.response ⟨404, []⟩])]).requestCount = 2
      ∧ (runAttempts defaultConfig sampleInfo Counters.initial
          [(sampleRequest, [UpstreamEvent.response ⟨200, sampleUpstreamHeaders⟩]),
            (sampleRequest, [UpstreamEvent.error "read ECONNRESET"]),
            (sampleRequest, [UpstreamEvent.response ⟨404, []⟩])]).errorCount = 1 := by
  have hall : ∀ a ∈ [(sampleRequest, [UpstreamEvent.response ⟨200, sampleUpstreamHeaders⟩]),
      (sampleRequest, [UpstreamEvent.error "read ECONNRESET"]),
      (sampleRequest, [UpstreamEvent.response ⟨404, []⟩])],
      Forwarded a.1 ∧ Attempt.SingleOutcome a := by
    intro a ha
    simp only [List.mem_cons, List.mem_singleton, List.not_mem_nil, or_false] at ha
    rcases ha with rfl | rfl | rfl <;> exact ⟨by decide, _, rfl, by decide⟩
  have hw := counters_after_attempts defaultConfig sampleInfo _ hall
  refine ⟨hall, hw.1, hw.2 ?_⟩
  intro a ha
  simp only [List.mem_cons, List.mem_singleton, List.not_mem_nil, or_false] at ha
  rcases ha with rfl | rfl | rfl <;> rfl

/-- C6 fails as stated: one forwarding attempt that ends with a transport
error leaves `requestCount` at zero, while one attempt was made. (And one
attempt whose response head is followed by a transport error, with no timeout
anywhere, is counted as one request and two errors.) -/
theorem requestCount_misses_failed_attempt :
    (runAttempts defaultConfig sampleInfo Counters.initial
        [(sampleRequest, [UpstreamEvent.error "read ECONNRESET"])]).requestCount = 0
      ∧ (runAttempts defaultConfig sampleInfo Counters.initial
        [(sampleRequest, [UpstreamEvent.error "read ECONNRESET"])]).requestCount
        ≠ [(sampleRequest, [UpstreamEvent.error "read ECONNRESET"])].length
      ∧ runAttempts defaultConfig sampleInfo Counters.initial
          [(sampleRequest, [UpstreamEvent.response ⟨200, sampleUpstreamHeaders⟩,
            UpstreamEvent.error "read ECONNRESET"])]
        = { requestCount := 1, errorCount := 2 } := by
  refine ⟨by rfl, by decide, by decide⟩

/-! ## The target path -/

theorem not_c0_of_not_inQuerySet (c : Char) (h : inQuerySet c = false) :
    isC0ControlOrSpace c = false := by
  simp only [inQuerySet, inC0ControlSet, Bool.or_eq_false_iff, decide_eq_false_iff_not] at h
  obtain ⟨⟨⟨⟨⟨⟨h1, _⟩, h2⟩, _⟩, _⟩, _⟩, _⟩ := h
  have h3 : c.toNat ≠ 0x20 := by
    intro h32
    apply h2
    rw [← Char.ofNat_toNat c, h32]
  simp only [isC0ControlOrSpace, decide_eq_false_iff_not]
  omega

theorem not_tabOrNewline_of_not_c0 (c : Char) (h : isC0ControlOrSpace c = false) :
    (!isAsciiTabOrNewline c) = true := by
  cases ht : isAsciiTabOrNewline c with
  | false => rfl
  | true =>
    simp only [isAsciiTabOrNewline, Bool.or_eq_true, decide_eq_true_eq] at ht
    rcases ht with (ht | ht) | ht <;> rw [ht] at h <;> exact absurd h (by decide)

theorem stripTrailing_of_plain (l : List Char) (h : ∀ c ∈ l, isC0ControlOrSpace c = false) :
    stripTrailing l = l := by
  induction l with
  | nil => rfl
  | cons c cs ih =>
    have hc := h c (List.mem_cons_self _ _)
    have hcs := ih (fun d hd => h d (List.mem_cons_of_mem _ hd))
    rw [stripTrailing, hcs]
    cases cs with
    | nil => simp [hc]
    | cons r rs => rfl

theorem preprocessInput_of_plain (l : List Char) (h : ∀ c ∈ l, isC0ControlOrSpace c = false) :
    preprocessInput l = l := by
  unfold preprocessInput
  have hd : l.dropWhile isC0ControlOrSpace = l := by
    cases l with
    | nil => rfl
    | cons c cs =>
      exact List.dropWhile_cons_of_neg (by simp [h c (List.mem_cons_self _ _)])
  rw [hd, stripTrailing_of_plain l h, List.filter_eq_self]
  intro c hc
  exact not_tabOrNewline_of_not_c0 c (h c hc)

theorem flatMap_encode_of_outside (inSet : Char → Bool) (l : List Char)
    (h : ∀ c ∈ l, inSet c = false) : l.flatMap (utf8PercentEncode inSet) = l := by
  induction l with
  | nil => rfl
  | cons c cs ih =>
    rw [List.flatMap_cons, ih (fun d hd => h d (List.mem_cons_of_mem _ hd))]
    simp [utf8PercentEncode, h c (List.mem_cons_self _ _)]

theorem queryState_no_fragment (url : URLRecord) (buffer q : List Char) (h : '#' ∉ q) :
    queryState url buffer q
      = { url with
          query := some (url.query.getD []
            ++ (buffer ++ q).flatMap (utf8PercentEncode inSpecialQuerySet)) } := by
  induction q generalizing buffer with
  | nil => simp [queryState]
  | cons c cs ih =>
    have hc : ¬ c = '#' := fun hc => h (hc ▸ List.mem_cons_self _ _)
    have hcs : '#' ∉ cs := fun hm => h (List.mem_cons_of_mem _ hm)
    rw [queryState, if_neg hc, ih _ hcs]
    simp

theorem endPathSegment_of_notDot (url : URLRecord) (buffer : List Char) (atSlash : Bool)
    (h : NotDotSegment buffer) :
    endPathSegment url buffer atSlash = { url with path := url.path ++ [buffer] } := by
  unfold endPathSegment
  simp [h.1, h.2]

theorem pathState_slash (url : URLRecord) (buffer rest : List Char) :
    pathState url buffer ('/' :: rest) = pathState (endPathSegment url buffer true) [] rest := by
  have h1 : ('/' = '/' || '/' = backslash) = true := by decide
  rw [pathState, if_pos h1]

theorem pathState_question (url : URLRecord) (buffer rest : List Char) :
    pathState url buffer ('?' :: rest)
      = queryState { endPathSegment url buffer false with query := some [] } [] rest := by
  have h1 : ¬ ('?' = '/' || '?' = backslash) = true := by decide
  rw [pathState, if_neg h1, if_pos rfl]

theorem pathState_plain (url : URLRecord) (buffer rest : List Char) (c : Char)
    (h1 : c ≠ '/') (h2 : c ≠ backslash) (h3 : c ≠ '?') (h4 : c ≠ '#') :
    pathState url buffer (c :: rest)
      = pathState url (buffer ++ utf8PercentEncode inPathSet c) rest := by
  have h : ¬ (c = '/' || c = backslash) = true := by simp [h1, h2]
  rw [pathState, if_neg h, if_neg h3, if_neg h4]

/-- The path state on a path without dot segments and without code points it
would rewrite, followed by nothing or by a non-empty query of code points the
query state keeps: path and query, put together again, are the input. -/
theorem pathState_verbatim (p q : List Char) (path : List (List Char)) (buffer : List Char)
    (hp : ∀ c ∈ p, PathVerbatim c)
    (hd : ∀ segment ∈ (p.splitOnP (fun c => c == '/')).modifyHead (fun s => buffer ++ s),
      NotDotSegment segment)
    (hq : q = [] ∨
      ∃ qs, q = '?' :: qs ∧ qs ≠ [] ∧ ∀ c ∈ qs, inSpecialQuerySet c = false) :
    (pathState ⟨path, none, none⟩ buffer (p ++ q)).pathname.data
        ++ (pathState ⟨path, none, none⟩ buffer (p ++ q)).search.data
      = path.flatMap (fun segment => '/' :: segment) ++ '/' :: (buffer ++ p) ++ q := by
  induction p generalizing path buffer with
  | nil =>
    have hb : NotDotSegment buffer := by
      have := hd (buffer ++ []) (by simp [List.splitOnP_nil, List.modifyHead])
      simpa using this
    rcases hq with hq | ⟨qs, hq, hne, hqs⟩
    · subst hq
      simp [pathState, endPathSegment_of_notDot _ _ _ hb, URLRecord.pathname, URLRecord.search]
    · subst hq
      have hsharp : '#' ∉ qs := by
        intro hm
        exact absurd (hqs '#' hm) (by decide)
      rw [List.nil_append, pathState_question, queryState_no_fragment _ _ _ hsharp,
        endPathSegment_of_notDot _ _ _ hb]
      simp only [List.nil_append, Option.getD_some, flatMap_encode_of_outside _ _ hqs,
        URLRecord.pathname, URLRecord.search]
      cases qs with
      | nil => exact absurd rfl hne
      | cons a as => simp
  | cons c cs ih =>
    have hc := hp c (List.mem_cons_self _ _)
    have hcs : ∀ d ∈ cs, PathVerbatim d := fun d hd => hp d (List.mem_cons_of_mem _ hd)
    obtain ⟨hset, hbs, _⟩ := hc
    obtain ⟨x, xs, hx⟩ : ∃ x xs, cs.splitOnP (fun c => c == '/') = x :: xs := by
      cases hsplit : cs.splitOnP (fun c => c == '/') with
      | nil => exact absurd hsplit (List.splitOnP_ne_nil _ _)
      | cons x xs => exact ⟨x, xs, rfl⟩
    rw [List.splitOnP_cons, hx] at hd
    by_cases hslash : c = '/'
    · subst hslash
      simp only [beq_self_eq_true, if_true, List.modifyHead, List.mem_cons, forall_eq_or_imp,
        List.append_nil] at hd
      rw [List.cons_append, pathState_slash, endPathSegment_of_notDot _ _ _ hd.1]
      have := ih (path ++ [buffer]) [] hcs (by
        rw [hx]
        simpa [List.modifyHead] using hd.2)
      rw [this]
      simp
    · have hne : (c == '/') = false := by simpa using hslash
      simp only [hne, Bool.false_eq_true, if_false, List.modifyHead] at hd
      have hparts : c ≠ '?' ∧ c ≠ '#' := by
        simp only [inPathSet, inQuerySet, Bool.or_eq_false_iff, decide_eq_false_iff_not] at hset
        exact ⟨hset.1.1.1.2, hset.1.1.1.1.1.1.2⟩
      have henc : utf8PercentEncode inPathSet c = [c] := by simp [utf8PercentEncode, hset]
      rw [List.cons_append, pathState_plain _ _ _ _ hslash hbs hparts.1 hparts.2, henc]
      have := ih path (buffer ++ [c]) hcs (by
        rw [hx]
        simpa [List.modifyHead] using hd)
      rw [this]
      simp

theorem head_of_dropWhile (f : Char → Bool) (l : List Char) (a : Char) (r : List Char)
    (h : l.dropWhile f = a :: r) : f a = false := by
  induction l with
  | nil => simp at h
  | cons c cs ih =>
    rw [List.dropWhile_cons] at h
    cases hc : f c with
    | true =>
      rw [hc] at h
      exact ih h
    | false =>
      rw [hc] at h
      simp only [Bool.false_eq_true, if_false, List.cons.injEq] at h
      rw [← h.1]
      exact hc

/-- C3, as the code has it: for a request URL that starts with `/cgi-bin/`,
whose path holds no code point the path state rewrites (none of the path
percent-encode set, no backslash) and no dot segment (`.`, `..` or a `%2e`
spelling), and whose query, if there is a `?`, is not empty and holds no code
point of the special-query percent-encode set (so no `#`), the target path
`url.pathname + url.search` is the request URL itself. -/
theorem targetPath_verbatim (u : String) (hs : startsWith u "/cgi-bin/" = true)
    (hpath : ∀ c ∈ pathPart u, PathVerbatim c)
    (hdots : ∀ segment ∈ (pathPart u).splitOn '/', NotDotSegment segment)
    (hquery : ∀ c ∈ (queryPart u).tail, inSpecialQuerySet c = false)
    (hnonempty : queryPart u ≠ ['?']) :
    targetPathOf u = some u := by
  obtain ⟨t, ht⟩ := data_of_startsWith u hs
  obtain ⟨rest, hrest, hu⟩ :
      ∃ rest, rest = 'c' :: 'g' :: 'i' :: '-' :: 'b' :: 'i' :: 'n' :: '/' :: t
        ∧ u.data = '/' :: rest := ⟨_, rfl, ht⟩
  have hpp : pathPart u = '/' :: rest.takeWhile (fun c => c != '?') := by
    unfold pathPart
    rw [hu]
    rfl
  have hqp : queryPart u = rest.dropWhile (fun c => c != '?') := by
    unfold queryPart
    rw [hu]
    rfl
  have hjoin : rest = rest.takeWhile (fun c => c != '?') ++ queryPart u := by
    rw [hqp, List.takeWhile_append_dropWhile]
  have hq : queryPart u = [] ∨ ∃ q', queryPart u = '?' :: q' ∧ q' ≠ []
      ∧ ∀ c ∈ q', inSpecialQuerySet c = false := by
    cases hcase : queryPart u with
    | nil => exact Or.inl rfl
    | cons a q' =>
      right
      have ha : a = '?' := by
        have := head_of_dropWhile _ _ _ _ (hqp ▸ hcase)
        simpa using this
      subst ha
      refine ⟨q', rfl, ?_, ?_⟩
      · intro hnil
        rw [hnil] at hcase
        exact hnonempty hcase
      · intro c hc
        apply hquery
        rw [hcase]
        exact hc
  have hp' : ∀ c ∈ rest.takeWhile (fun c => c != '?'), PathVerbatim c := by
    intro c hc
    apply hpath
    rw [hpp]
    exact List.mem_cons_of_mem _ hc
  have hd' : ∀ segment ∈
      ((rest.takeWhile (fun c => c != '?')).splitOnP (fun c => c == '/')).modifyHead
        (fun s => [] ++ s), NotDotSegment segment := by
    intro segment hseg
    apply hdots
    rw [hpp]
    unfold List.splitOn
    rw [List.splitOnP_cons]
    simp only [beq_self_eq_true, if_true]
    apply List.mem_cons_of_mem
    cases hsp : (rest.takeWhile (fun c => c != '?')).splitOnP (fun c => c == '/') with
    | nil => exact absurd hsp (List.splitOnP_ne_nil _ _)
    | cons x xs =>
      rw [hsp] at hseg
      simpa [List.modifyHead] using hseg
  have hplain : ∀ c ∈ u.data, isC0ControlOrSpace c = false := by
    intro c hc
    rw [hu, hjoin, ← List.cons_append, ← hpp, List.mem_append] at hc
    rcases hc with hc | hc
    · have hset := (hpath c hc).1
      apply not_c0_of_not_inQuerySet
      simp only [inPathSet, Bool.or_eq_false_iff] at hset
      exact hset.1.1.1.1
    · rcases hq with hnil | ⟨q', hq1, _, hq3⟩
      · rw [hnil] at hc
        simp at hc
      · rw [hq1, List.mem_cons] at hc
        rcases hc with hc | hc
        · rw [hc]
          decide
        · have hset := hq3 c hc
          apply not_c0_of_not_inQuerySet
          simp only [inSpecialQuerySet, Bool.or_eq_false_iff] at hset
          exact hset.1
  have hmain := pathState_verbatim (rest.takeWhile (fun c => c != '?')) (queryPart u) [] []
    hp' hd' hq
  rw [← hjoin] at hmain
  have hc : ('c' = '/' || 'c' = backslash) = false := by decide
  unfold targetPathOf parseURL
  rw [preprocessInput_of_plain _ hplain, hu, hrest]
  simp only [hc, Bool.false_eq_true, if_false, Option.map_some', Option.some.injEq]
  apply String.ext
  rw [String.data_append, ← hrest, hmain, hu]
  simp only [List.flatMap_nil, List.nil_append, List.cons_append, List.cons.injEq, true_and]
  exact hjoin.symm

theorem targetPath_verbatim_witness :
    startsWith "/cgi-bin/gettoken?corpid=ID&corpsecret=SECRET" "/cgi-bin/" = true
      ∧ targetPathOf "/cgi-bin/gettoken?corpid=ID&corpsecret=SECRET"
        = some "/cgi-bin/gettoken?corpid=ID&corpsecret=SECRET" :=
  ⟨by decide,
    targetPath_verbatim "/cgi-bin/gettoken?corpid=ID&corpsecret=SECRET" (by decide) (by decide)
      (by decide) (by decide) (by decide)⟩

/-- C3 fails as stated: an empty query loses its `?`, a fragment is dropped,
and a backslash in the path comes out as a slash. -/
theorem targetPath_not_verbatim :
    startsWith "/cgi-bin/user/list?" "/cgi-bin/" = true
      ∧ targetPathOf "/cgi-bin/user/list?" = some "/cgi-bin/user/list"
      ∧ targetPathOf "/cgi-bin/user/get?userid=a#top" = some "/cgi-bin/user/get?userid=a"
      ∧ targetPathOf ⟨"/cgi-bin/user".data ++ backslash :: "get".data⟩
        = some "/cgi-bin/user/get"
      ∧ ¬ (∀ u : String, startsWith u "/cgi-bin/" = true → targetPathOf u = some u) := by
  refine ⟨by decide, by decide, by decide, by decide, ?_⟩
  intro h
  exact absurd (h "/cgi-bin/user/list?" (by decide)) (by decide)

/-- C10: the prefix gate reads the raw request URL, the outbound request gets
the parsed one. A request for `/cgi-bin/../sns/userinfo` passes the gate and
is sent upstream as `/sns/userinfo`, a path outside `/cgi-bin/`. -/
theorem prefix_gate_bypassed :
    startsWith "/cgi-bin/../sns/userinfo" "/cgi-bin/" = true
      ∧ targetPathOf "/cgi-bin/../sns/userinfo" = some "/sns/userinfo"
      ∧ (requestListener defaultConfig sampleInfo Counters.initial
          { method := "GET", url := "/cgi-bin/../sns/userinfo", headers := [] }).proxyReq.map
            (fun r => r.options.path) = some "/sns/userinfo"
      ∧ startsWith "/sns/userinfo" "/cgi-bin/" = false := by
  refine ⟨by decide, by decide, by decide, by decide⟩

end WechatProxy
